import Mathlib

/-!
# Verification of the `mix_oklab` color-blending pipeline

A shallow embedding of `src/mix_oklab.ts`, a small TypeScript program that
parses hex color strings, converts them to linear RGB, blends them through the
OKLab (LMS cube-root) domain, and formats the results back as hex strings.

Modelling conventions:

* JavaScript numbers are modelled by `JNum := Option ℝ`, where `none` models
  `NaN` and `some x` models an (idealized, infinitely precise) finite value.
  Rounding of IEEE doubles is not modelled; the numeric claims proved below
  are stated with the tolerances the specification itself uses.
* JavaScript's 32-bit integer operators (`|0`, `<<`, `>>`, `&`, `|`) are
  modelled on `ℤ` by first wrapping each operand into the signed 32-bit range
  (`int32wrap`, JavaScript's `ToInt32`) and then performing the exact
  mathematical operation: `>>` is floor division by a power of two (which is
  what an arithmetic shift performs), `&`/`|` are two's-complement bitwise
  operations (`Int.land` / `Int.lor`).
* `Math.pow` is modelled by `jpow`: it returns `NaN` (`none`) for a negative
  base, faithful to JavaScript for the non-integral exponents `1/3`, `2.4`
  and `1/2.4` that occur in this program.
* The fallible parser `stringToHex` (which throws `Error("Invalid hex color
  format.")` in the source) returns an `Option`, `none` modelling the throw.
-/

/-! ## JavaScript 32-bit integer operations -/

/-- Wrap an integer into the signed 32-bit range, as JavaScript's `ToInt32`
abstract operation does with an (already truncated) integer. -/
def int32wrap (n : ℤ) : ℤ := (n + 2 ^ 31) % 2 ^ 32 - 2 ^ 31

/-- JavaScript `a >> k` (sign-propagating right shift) for a constant
nonnegative shift count: `ToInt32` the operand, then shift arithmetically,
i.e. floor-divide by `2 ^ (k mod 32)`. -/
def jsShr (a : ℤ) (k : ℕ) : ℤ := int32wrap a / 2 ^ (k % 32)

/-- JavaScript `a << k` (left shift) for a constant nonnegative shift count:
`ToInt32` the operand, multiply by `2 ^ (k mod 32)`, and wrap back into the
signed 32-bit range. -/
def jsShl (a : ℤ) (k : ℕ) : ℤ := int32wrap (int32wrap a * 2 ^ (k % 32))

/-- JavaScript `a & b`: `ToInt32` both operands, then two's-complement
bitwise AND. -/
def jsAnd (a b : ℤ) : ℤ := Int.land (int32wrap a) (int32wrap b)

/-- JavaScript `a | b`: `ToInt32` both operands, then two's-complement
bitwise OR. -/
def jsOr (a b : ℤ) : ℤ := Int.lor (int32wrap a) (int32wrap b)

/-! ## Hex string parsing (`stringToHex`) -/

/-- One character of the regex class `[0-9A-Fa-f]`. -/
def isHexDigitChar (c : Char) : Bool :=
  (('0' ≤ c) && (c ≤ '9')) || (('A' ≤ c) && (c ≤ 'F')) || (('a' ≤ c) && (c ≤ 'f'))

/-- Whether the regex `^#?[0-9A-Fa-f]{6}$` of `stringToHex` accepts a string:
an optional leading `#` followed by exactly six hexadecimal digits. -/
def hexColorRegexAccepts (s : String) : Bool :=
  if s.data.head? = some '#' then
    s.data.tail.length == 6 && s.data.tail.all isHexDigitChar
  else
    s.data.length == 6 && s.data.all isHexDigitChar

/-- Numeric value of one hexadecimal digit character (0 for other characters,
which cannot occur after validation). -/
def hexDigitVal (c : Char) : ℕ :=
  if ('0' ≤ c) && (c ≤ '9') then c.toNat - 48
  else if ('A' ≤ c) && (c ≤ 'F') then c.toNat - 55
  else if ('a' ≤ c) && (c ≤ 'f') then c.toNat - 87
  else 0

/-- JavaScript `parseInt(s, 16)` restricted to strings made of hexadecimal
digits (the only use in this program, after regex validation): the usual
most-significant-first accumulation over the characters. -/
def jsParseIntHex (l : List Char) : ℕ :=
  l.foldl (fun acc c => 16 * acc + hexDigitVal c) 0

/-- Embedding of `stringToHex`: validate against `^#?[0-9A-Fa-f]{6}$`
(throwing, i.e. `none`, on failure), strip a leading `#` (`slice(1)`), and
parse the rest as a base-16 integer. -/
def stringToHex (hexStr : String) : Option ℕ :=
  if hexColorRegexAccepts hexStr then
    some (jsParseIntHex
      (if hexStr.data.head? = some '#' then hexStr.data.tail else hexStr.data))
  else none

/-! ## Hex string formatting (`hexToString`) -/

/-- JavaScript `n.toString(16)` for an integer `n`: minimal lowercase
hexadecimal digits, with a leading minus sign for negative values. -/
def jsToString16 (n : ℤ) : String :=
  if n < 0 then "-" ++ String.mk (Nat.toDigits 16 n.natAbs)
  else String.mk (Nat.toDigits 16 n.toNat)

/-- One channel of `hexToString`: `(r < 16 ? "0" : "") + r.toString(16)`. -/
def hexPad2 (r : ℤ) : String :=
  (if r < 16 then "0" else "") ++ jsToString16 r

/-- Embedding of `hexToString`: extract the three 8-bit channels with
`>> / & 0xFF` and format each as two lowercase hex digits after `#`. -/
def hexToString (hex : ℤ) : String :=
  "#" ++ hexPad2 (jsAnd (jsShr hex 16) 255)
      ++ hexPad2 (jsAnd (jsShr hex 8) 255)
      ++ hexPad2 (jsAnd hex 255)

/-! ## Specification-side definitions for parsing (used by claim C4 only) -/

/-- Spec reading of a case-insensitive hexadecimal digit. -/
def specIsHexDigit (c : Char) : Prop :=
  ('0' ≤ c ∧ c ≤ '9') ∨ ('a' ≤ c ∧ c ≤ 'f') ∨ ('A' ≤ c ∧ c ≤ 'F')

/-- Spec reading of the accepted format: an optional leading `#` followed by
exactly 6 hexadecimal digits (case-insensitive). -/
def specHexFormat (s : String) : Prop :=
  (s.data.length = 6 ∧ ∀ c ∈ s.data, specIsHexDigit c) ∨
  (∃ t, s.data = '#' :: t ∧ t.length = 6 ∧ ∀ c ∈ t, specIsHexDigit c)

/-- Spec value of one hexadecimal digit. -/
def specHexDigitVal (c : Char) : ℕ :=
  if '0' ≤ c ∧ c ≤ '9' then c.toNat - ('0').toNat
  else if 'a' ≤ c ∧ c ≤ 'f' then c.toNat - ('a').toNat + 10
  else if 'A' ≤ c ∧ c ≤ 'F' then c.toNat - ('A').toNat + 10
  else 0

/-- Spec value of a big-endian string of hexadecimal digits: each digit is
weighted by 16 to the power of the number of digits to its right. -/
def specHexDigitsVal : List Char → ℕ
  | [] => 0
  | c :: t => specHexDigitVal c * 16 ^ t.length + specHexDigitsVal t

/-- Spec value of a hex color string: the value of its digits after an
optional leading `#`. -/
def specHexValue (s : String) : ℕ :=
  if s.data.head? = some '#' then specHexDigitsVal s.data.tail
  else specHexDigitsVal s.data

/-! ## JavaScript numbers and 3-component vectors -/

/-- A JavaScript number: `none` is `NaN`, `some x` an idealized finite value. -/
abbrev JNum := Option ℝ

/-- Addition; `NaN` is absorbing, as for IEEE doubles. -/
def jadd : JNum → JNum → JNum
  | some a, some b => some (a + b)
  | _, _ => none

/-- Subtraction; `NaN` is absorbing. -/
def jsub : JNum → JNum → JNum
  | some a, some b => some (a - b)
  | _, _ => none

/-- Multiplication; `NaN` is absorbing (in IEEE arithmetic even `NaN * 0` is
`NaN`). -/
def jmul : JNum → JNum → JNum
  | some a, some b => some (a * b)
  | _, _ => none

/-- `Math.pow x e` for the positive non-integral exponents used in this
program (`1/3`, `2.4`, `1/2.4`): `NaN` for a `NaN` or negative base,
otherwise the real power `x ^ e`. -/
noncomputable def jpow : JNum → ℝ → JNum
  | none, _ => none
  | some a, e => if a < 0 then none else some (a ^ e)

/-- The `Vec3` type of the source: three JavaScript numbers. -/
structure Vec3 where
  x : JNum
  y : JNum
  z : JNum

/-- A row of a matrix: three (literal, never-`NaN`) numbers. -/
structure RVec3 where
  x : ℝ
  y : ℝ
  z : ℝ

/-- The `Mat3` type of the source: three rows. -/
structure Mat3 where
  r0 : RVec3
  r1 : RVec3
  r2 : RVec3

/-- Embedding of `mat3MultiplyVec3`: `out[i] = Σ_j mat[i][j] * vec[j]`, sums
associated to the left as in the source. -/
def mat3MultiplyVec3 (mat : Mat3) (vec : Vec3) : Vec3 :=
  ⟨jadd (jadd (jmul (some mat.r0.x) vec.x) (jmul (some mat.r0.y) vec.y)) (jmul (some mat.r0.z) vec.z),
   jadd (jadd (jmul (some mat.r1.x) vec.x) (jmul (some mat.r1.y) vec.y)) (jmul (some mat.r1.z) vec.z),
   jadd (jadd (jmul (some mat.r2.x) vec.x) (jmul (some mat.r2.y) vec.y)) (jmul (some mat.r2.z) vec.z)⟩

/-- Embedding of `mix`: componentwise `a * (1 - h) + b * h`. -/
def mix (a b : Vec3) (h : ℝ) : Vec3 :=
  ⟨jadd (jmul a.x (some (1 - h))) (jmul b.x (some h)),
   jadd (jmul a.y (some (1 - h))) (jmul b.y (some h)),
   jadd (jmul a.z (some (1 - h))) (jmul b.z (some h))⟩

/-- Embedding of `powVec3`: componentwise `Math.pow`. -/
noncomputable def powVec3 (vec : Vec3) (exp : ℝ) : Vec3 :=
  ⟨jpow vec.x exp, jpow vec.y exp, jpow vec.z exp⟩

/-- The `kCONEtoLMS` constant matrix, rows exactly as written in the source. -/
def kCONEtoLMS : Mat3 :=
  ⟨⟨0.4121656120, 0.2118591070, 0.0883097947⟩,
   ⟨0.5362752080, 0.6807189584, 0.2818474174⟩,
   ⟨0.0514575653, 0.1074065790, 0.6302613616⟩⟩

/-- The `kLMStoCONE` constant matrix, rows exactly as written in the source. -/
def kLMStoCONE : Mat3 :=
  ⟨⟨4.0767245293, -1.2681437731, -0.0041119885⟩,
   ⟨-3.3072168827, 2.6093323231, -0.7034763098⟩,
   ⟨0.2307590544, -0.3411344290, 1.7068625689⟩⟩

/-- Embedding of `oklabMix`: transform both colors by `kCONEtoLMS`, take
componentwise cube roots, interpolate by `h`, cube componentwise
(`lms[i] * lms[i] * lms[i]`, multiplications associated to the left), and
transform back by `kLMStoCONE`. -/
noncomputable def oklabMix (colA colB : Vec3) (h : ℝ) : Vec3 :=
  let lmsA := powVec3 (mat3MultiplyVec3 kCONEtoLMS colA) (1.0 / 3.0)
  let lmsB := powVec3 (mat3MultiplyVec3 kCONEtoLMS colB) (1.0 / 3.0)
  let lms := mix lmsA lmsB h
  mat3MultiplyVec3 kLMStoCONE
    ⟨jmul (jmul lms.x lms.x) lms.x,
     jmul (jmul lms.y lms.y) lms.y,
     jmul (jmul lms.z lms.z) lms.z⟩

/-! ## Hex ↔ linear RGB codec -/

/-- Truncation toward zero of a real number, as JavaScript's `ToInt32` and
`| 0` perform on a finite value. -/
noncomputable def truncTowardZero (x : ℝ) : ℤ :=
  if 0 ≤ x then ⌊x⌋ else -⌊-x⌋

/-- JavaScript `v | 0` on a number `v`: `NaN` becomes `0`; a finite value is
truncated toward zero and wrapped into the signed 32-bit range. -/
noncomputable def jsToInt32 : JNum → ℤ
  | none => 0
  | some a => int32wrap (truncTowardZero a)

/-- One channel of the encoding step of `linearRGBtoHex`:
`c <= 0.0031308 ? c * 12.92 : 1.055 * Math.pow(c, 1 / 2.4) - 0.055`.
A `NaN` channel fails the comparison and is sent through the `Math.pow`
branch, staying `NaN`. -/
noncomputable def srgbEncodeChannel : JNum → JNum
  | none => jsub (jmul (some 1.055) (jpow none (1 / 2.4))) (some 0.055)
  | some c =>
    if c ≤ 0.0031308 then jmul (some c) (some 12.92)
    else jsub (jmul (some 1.055) (jpow (some c) (1 / 2.4))) (some 0.055)

/-- Embedding of `linearRGBtoHex`: gamma-encode each channel, compute
`(c * 255 + 0.5) | 0`, and pack with `(r << 16) | (g << 8) | b`. -/
noncomputable def linearRGBtoHex (rgb : Vec3) : ℤ :=
  let r := jsToInt32 (jadd (jmul (srgbEncodeChannel rgb.x) (some 255)) (some 0.5))
  let g := jsToInt32 (jadd (jmul (srgbEncodeChannel rgb.y) (some 255)) (some 0.5))
  let b := jsToInt32 (jadd (jmul (srgbEncodeChannel rgb.z) (some 255)) (some 0.5))
  jsOr (jsOr (jsShl r 16) (jsShl g 8)) b

/-- One channel of the decoding step of `hexToLinearRGB`:
`c <= 0.04045 ? c / 12.92 : Math.pow((c + 0.055) / 1.055, 2.4)`.
The input is an 8-bit channel divided by 255, so the `Math.pow` base
`(c + 0.055) / 1.055` is always positive and the real power is faithful. -/
noncomputable def srgbDecodeChannel (c : ℝ) : ℝ :=
  if c ≤ 0.04045 then c / 12.92 else ((c + 0.055) / 1.055) ^ (2.4 : ℝ)

/-- Embedding of `hexToLinearRGB`: extract the three 8-bit channels with
`>> / & 0xFF`, divide by 255, and gamma-decode each channel. -/
noncomputable def hexToLinearRGB (hex : ℤ) : Vec3 :=
  ⟨some (srgbDecodeChannel ((jsAnd (jsShr hex 16) 255 : ℤ) / 255)),
   some (srgbDecodeChannel ((jsAnd (jsShr hex 8) 255 : ℤ) / 255)),
   some (srgbDecodeChannel ((jsAnd hex 255 : ℤ) / 255))⟩

/-! ## The CLI driver (`call`) -/

/-- One line of the driver's output: the interpolated linear-RGB color, its
packed hex integer, and the formatted hex string. -/
structure MixEntry where
  color : Vec3
  hex : ℤ
  str : String

/-- Embedding of the CLI `call` handler: parse both endpoint strings (a parse
failure throws, modelled by `none`), default the midpoint count to 1 via
`??`, add 1, and emit one entry for each `i = 0, …, midpoints` at ratio
`i / midpoints`. -/
noncomputable def cliCall (startStr endStr : String) (midArg : Option ℕ) :
    Option (List MixEntry) :=
  match stringToHex startStr, stringToHex endStr with
  | some s, some e =>
    let startColor := hexToLinearRGB (s : ℤ)
    let endColor := hexToLinearRGB (e : ℤ)
    let midpoints := midArg.getD 1 + 1
    some ((List.range (midpoints + 1)).map (fun i : ℕ =>
      let color := oklabMix startColor endColor ((i : ℝ) / (midpoints : ℝ))
      let hexColor := linearRGBtoHex color
      ⟨color, hexColor, hexToString hexColor⟩))
  | _, _ => none

/-! ## Specification-side definitions for encoding (used by claim C8 only) -/

/-- Modelled from the spec: `srgb_encode(channel)`: if
`channel <= 0.0031308`, `channel * 12.92`, else
`1.055 * channel ^ (1 / 2.4) - 0.055`. -/
noncomputable def specSrgbEncode (c : ℝ) : ℝ :=
  if c ≤ 0.0031308 then c * 12.92 else 1.055 * c ^ ((1 : ℝ) / 2.4) - 0.055

/-- Modelled from the spec: `linear_to_hex(color)`: apply `srgb_encode` per
channel, scale by 255, add 0.5, truncate toward zero, and pack the three
channels into 24 bits (no clamping). -/
noncomputable def specLinearToHex (r g b : ℝ) : ℤ :=
  truncTowardZero (specSrgbEncode r * 255 + 0.5) * 2 ^ 16 +
  truncTowardZero (specSrgbEncode g * 255 + 0.5) * 2 ^ 8 +
  truncTowardZero (specSrgbEncode b * 255 + 0.5)

/-! ## Small statement-level helper definitions -/

/-- A color whose three components are finite (non-`NaN`) values. -/
def vecOfReals (r g b : ℝ) : Vec3 := ⟨some r, some g, some b⟩

/-- The sixteen lowercase hexadecimal digit characters. -/
def lowercaseHexDigits : List Char := "0123456789abcdef".data

/-- A JavaScript number that is a (finite) negative value. -/
def componentNeg (w : JNum) : Prop := ∃ c, w = some c ∧ c < 0

/-- Some component of `kCONEtoLMS` applied to the color is negative. -/
def someConeNeg (v : Vec3) : Prop :=
  componentNeg (mat3MultiplyVec3 kCONEtoLMS v).x ∨
  componentNeg (mat3MultiplyVec3 kCONEtoLMS v).y ∨
  componentNeg (mat3MultiplyVec3 kCONEtoLMS v).z

/-! ## Auxiliary lemmas: 32-bit integer operations -/

theorem int32wrap_eq_self {n : ℤ} (h1 : -(2 ^ 31) ≤ n) (h2 : n < 2 ^ 31) :
    int32wrap n = n := by
  unfold int32wrap; omega

set_option maxRecDepth 4096 in
theorem hexBits_complement : ∀ k : Fin 256, ∀ i : Fin 8,
    Nat.testBit (255 - (k : ℕ)) (i : ℕ) = !(Nat.testBit (k : ℕ) (i : ℕ)) := by decide

theorem testBit_255 (i : ℕ) : Nat.testBit 255 i = decide (i < 8) := by
  have h : (255 : ℕ) = 2 ^ 8 - 1 := by norm_num
  rw [h, Nat.testBit_two_pow_sub_one]

theorem ldiff_255 (m : ℕ) : Nat.ldiff 255 m = 255 - m % 256 := by
  apply Nat.eq_of_testBit_eq
  intro i
  rw [Nat.testBit_ldiff, testBit_255]
  by_cases hi : i < 8
  · have hk : m % 256 < 256 := Nat.mod_lt _ (by norm_num)
    have h2 := hexBits_complement ⟨m % 256, hk⟩ ⟨i, hi⟩
    simp only [Fin.val_mk] at h2
    rw [h2]
    simp only [hi, decide_True, Bool.true_and]
    have h256 : (256 : ℕ) = 2 ^ 8 := by norm_num
    rw [h256, Nat.testBit_mod_two_pow]
    simp [hi]
  · simp only [hi, decide_False, Bool.false_and]
    have hlt : 255 - m % 256 < 2 ^ i := by
      have h8 : (2:ℕ) ^ 8 ≤ 2 ^ i := Nat.pow_le_pow_right (by norm_num) (by omega)
      omega
    exact (Nat.testBit_eq_false_of_lt hlt).symm

theorem land_255 (x : ℤ) : Int.land x 255 = x % 256 := by
  cases x with
  | ofNat m =>
    have h1 : Int.land (Int.ofNat m) 255 = Int.ofNat (m &&& 255) := rfl
    have h2 : m &&& 255 = m % 256 := by
      have h : (255 : ℕ) = 2 ^ 8 - 1 := by norm_num
      rw [h, Nat.and_pow_two_sub_one_eq_mod]
    rw [h1, h2]
    have h3 : Int.ofNat (m % 256) = ((m % 256 : ℕ) : ℤ) := rfl
    have h4 : Int.ofNat m = ((m : ℕ) : ℤ) := rfl
    rw [h3, h4]
    push_cast
    omega
  | negSucc m =>
    have h1 : Int.land (Int.negSucc m) 255 = Int.ofNat (Nat.ldiff 255 m) := rfl
    rw [h1, ldiff_255]
    have hk : m % 256 < 256 := Nat.mod_lt _ (by norm_num)
    have h3 : Int.ofNat (255 - m % 256) = ((255 - m % 256 : ℕ) : ℤ) := rfl
    have h4 : Int.negSucc m = -(m : ℤ) - 1 := by rw [Int.negSucc_eq]; ring
    rw [h3, h4]
    have h5 : ((255 - m % 256 : ℕ) : ℤ) = 255 - ((m % 256 : ℕ) : ℤ) := by
      have hle : m % 256 ≤ 255 := by omega
      push_cast [Nat.cast_sub]
      omega
    rw [h5]
    push_cast
    omega

theorem jsAnd_255 (x : ℤ) : jsAnd x 255 = x % 256 := by
  unfold jsAnd
  have h255 : int32wrap 255 = 255 := by unfold int32wrap; decide
  rw [h255, land_255]
  unfold int32wrap
  omega

theorem jsShr_16 (x : ℤ) : jsShr x 16 = int32wrap x / 65536 := rfl

theorem jsShr_8 (x : ℤ) : jsShr x 8 = int32wrap x / 256 := rfl

theorem chanR_spec (x : ℤ) : jsAnd (jsShr x 16) 255 = x / 65536 % 256 := by
  rw [jsAnd_255, jsShr_16]
  unfold int32wrap
  omega

theorem chanG_spec (x : ℤ) : jsAnd (jsShr x 8) 255 = x / 256 % 256 := by
  rw [jsAnd_255, jsShr_8]
  unfold int32wrap
  omega

theorem lor_coe (a b : ℕ) : Int.lor (a : ℤ) (b : ℤ) = ((a ||| b : ℕ) : ℤ) := rfl

theorem nat_or_split_16 (r g : ℕ) (hg : g < 65536) :
    r * 65536 ||| g = r * 65536 + g := by
  have h := Nat.mul_add_lt_is_or (b := g) (i := 16) (by omega) r
  have h65536 : (2:ℕ) ^ 16 = 65536 := by norm_num
  rw [h65536] at h
  rw [Nat.mul_comm 65536 r] at h
  omega

theorem nat_or_split_8 (r g : ℕ) (hg : g < 256) :
    r * 256 ||| g = r * 256 + g := by
  have h := Nat.mul_add_lt_is_or (b := g) (i := 8) (by omega) r
  have h256 : (2:ℕ) ^ 8 = 256 := by norm_num
  rw [h256] at h
  rw [Nat.mul_comm 256 r] at h
  omega

theorem packRGB (r g b : ℤ) (hr0 : 0 ≤ r) (hr : r < 256) (hg0 : 0 ≤ g) (hg : g < 256)
    (hb0 : 0 ≤ b) (hb : b < 256) :
    jsOr (jsOr (jsShl r 16) (jsShl g 8)) b = r * 65536 + g * 256 + b := by
  obtain ⟨rn, rfl⟩ : ∃ n : ℕ, r = (n : ℤ) := ⟨r.toNat, (Int.toNat_of_nonneg hr0).symm⟩
  obtain ⟨gn, rfl⟩ : ∃ n : ℕ, g = (n : ℤ) := ⟨g.toNat, (Int.toNat_of_nonneg hg0).symm⟩
  obtain ⟨bn, rfl⟩ : ∃ n : ℕ, b = (n : ℤ) := ⟨b.toNat, (Int.toNat_of_nonneg hb0).symm⟩
  have hrn : rn < 256 := by exact_mod_cast hr
  have hgn : gn < 256 := by exact_mod_cast hg
  have hbn : bn < 256 := by exact_mod_cast hb
  have h1 : jsShl (rn : ℤ) 16 = ((rn * 65536 : ℕ) : ℤ) := by
    unfold jsShl
    have ha : int32wrap (rn : ℤ) = (rn : ℤ) :=
      int32wrap_eq_self (by omega) (by omega)
    rw [ha]
    have hb2 : (2 : ℤ) ^ (16 % 32 : ℕ) = 65536 := by norm_num
    rw [hb2]
    have hc : ((rn : ℤ) * 65536) = ((rn * 65536 : ℕ) : ℤ) := by push_cast; ring
    rw [hc]
    exact int32wrap_eq_self (by push_cast; omega) (by push_cast; omega)
  have h2 : jsShl (gn : ℤ) 8 = ((gn * 256 : ℕ) : ℤ) := by
    unfold jsShl
    have ha : int32wrap (gn : ℤ) = (gn : ℤ) :=
      int32wrap_eq_self (by omega) (by omega)
    rw [ha]
    have hb2 : (2 : ℤ) ^ (8 % 32 : ℕ) = 256 := by norm_num
    rw [hb2]
    have hc : ((gn : ℤ) * 256) = ((gn * 256 : ℕ) : ℤ) := by push_cast; ring
    rw [hc]
    exact int32wrap_eq_self (by push_cast; omega) (by push_cast; omega)
  unfold jsOr
  rw [h1, h2]
  have ha : int32wrap ((rn * 65536 : ℕ) : ℤ) = ((rn * 65536 : ℕ) : ℤ) :=
    int32wrap_eq_self (by push_cast; omega) (by push_cast; omega)
  have hbw : int32wrap ((gn * 256 : ℕ) : ℤ) = ((gn * 256 : ℕ) : ℤ) :=
    int32wrap_eq_self (by push_cast; omega) (by push_cast; omega)
  rw [ha, hbw, lor_coe]
  have hor1 : rn * 65536 ||| gn * 256 = rn * 65536 + gn * 256 :=
    nat_or_split_16 rn (gn * 256) (by omega)
  rw [hor1]
  have hc : int32wrap ((rn * 65536 + gn * 256 : ℕ) : ℤ) = ((rn * 65536 + gn * 256 : ℕ) : ℤ) :=
    int32wrap_eq_self (by push_cast; omega) (by push_cast; omega)
  have hd : int32wrap ((bn : ℕ) : ℤ) = ((bn : ℕ) : ℤ) :=
    int32wrap_eq_self (by push_cast; omega) (by push_cast; omega)
  rw [hc, hd, lor_coe]
  have hor2 : rn * 65536 + gn * 256 ||| bn = rn * 65536 + gn * 256 + bn := by
    have h := nat_or_split_8 (rn * 256 + gn) bn hbn
    have hrw : (rn * 256 + gn) * 256 = rn * 65536 + gn * 256 := by ring
    rw [hrw] at h
    omega
  rw [hor2]
  push_cast
  ring

/-! ## Auxiliary lemmas: hex formatting -/

set_option maxRecDepth 8192 in
theorem hexPad2_fin : ∀ n : Fin 256,
    ((hexPad2 ((n : ℕ) : ℤ)).data.length = 2 ∧
      ∀ c ∈ (hexPad2 ((n : ℕ) : ℤ)).data, c ∈ lowercaseHexDigits) := by decide

theorem hexPad2_shape {k : ℤ} (h0 : 0 ≤ k) (h : k < 256) :
    (hexPad2 k).data.length = 2 ∧ ∀ c ∈ (hexPad2 k).data, c ∈ lowercaseHexDigits := by
  obtain ⟨n, rfl⟩ : ∃ n : ℕ, k = (n : ℤ) := ⟨k.toNat, (Int.toNat_of_nonneg h0).symm⟩
  have hn : n < 256 := by exact_mod_cast h
  exact hexPad2_fin ⟨n, hn⟩

/-! ## Auxiliary lemmas: JavaScript number arithmetic -/

theorem jadd_some (a b : ℝ) : jadd (some a) (some b) = some (a + b) := rfl

theorem jmul_some (a b : ℝ) : jmul (some a) (some b) = some (a * b) := rfl

theorem jsub_some (a b : ℝ) : jsub (some a) (some b) = some (a - b) := rfl

theorem jadd_none_left (b : JNum) : jadd none b = none := rfl

theorem jadd_none_right (a : JNum) : jadd a none = none := by cases a <;> rfl

theorem jmul_none_left (b : JNum) : jmul none b = none := rfl

theorem jmul_none_right (a : JNum) : jmul a none = none := by cases a <;> rfl

theorem jpow_none (e : ℝ) : jpow none e = none := rfl

theorem jpow_some_of_nonneg {a : ℝ} (e : ℝ) (h : 0 ≤ a) :
    jpow (some a) e = some (a ^ e) := by
  simp only [jpow]
  rw [if_neg (not_lt.mpr h)]

theorem jpow_some_of_neg {a : ℝ} (e : ℝ) (h : a < 0) : jpow (some a) e = none := by
  simp only [jpow]
  rw [if_pos h]

/-! ## Auxiliary lemmas: real powers with rational exponents -/

theorem rpow_le_of_pow_le {c u : ℝ} (e : ℝ) {n : ℕ} (hc : 0 ≤ c) (hu : 0 ≤ u)
    (he : 0 ≤ e) (hen : e * n = 1) (h : c ≤ u ^ n) : c ^ e ≤ u := by
  calc c ^ e ≤ (u ^ n) ^ e := Real.rpow_le_rpow hc h he
  _ = (u ^ (n : ℝ)) ^ e := by rw [Real.rpow_natCast]
  _ = u ^ ((n : ℝ) * e) := by rw [← Real.rpow_mul hu]
  _ = u ^ (1 : ℝ) := by rw [mul_comm, hen]
  _ = u := Real.rpow_one u

theorem le_rpow_of_pow_le {c l : ℝ} (e : ℝ) {n : ℕ} (hl : 0 ≤ l)
    (he : 0 ≤ e) (hen : e * n = 1) (h : l ^ n ≤ c) : l ≤ c ^ e := by
  have hc : (0:ℝ) ≤ c := le_trans (by positivity) h
  calc l = l ^ (1 : ℝ) := (Real.rpow_one l).symm
  _ = l ^ ((n : ℝ) * e) := by rw [mul_comm, hen]
  _ = (l ^ (n : ℝ)) ^ e := Real.rpow_mul hl _ _
  _ = (l ^ n) ^ e := by rw [Real.rpow_natCast]
  _ ≤ c ^ e := Real.rpow_le_rpow (by positivity) h he

theorem cbrt_le {c u : ℝ} (hc : 0 ≤ c) (hu : 0 ≤ u) (h : c ≤ u ^ 3) :
    c ^ (1.0 / 3.0 : ℝ) ≤ u :=
  rpow_le_of_pow_le (1.0 / 3.0) hc hu (by norm_num) (by norm_num) h

theorem le_cbrt {c l : ℝ} (hl : 0 ≤ l) (h : l ^ 3 ≤ c) :
    l ≤ c ^ (1.0 / 3.0 : ℝ) :=
  le_rpow_of_pow_le (1.0 / 3.0) hl (by norm_num) (by norm_num) h

theorem cbrt_cubed {c : ℝ} (hc : 0 ≤ c) :
    c ^ (1.0 / 3.0 : ℝ) * c ^ (1.0 / 3.0 : ℝ) * c ^ (1.0 / 3.0 : ℝ) = c := by
  have h : c ^ (1.0 / 3.0 : ℝ) * c ^ (1.0 / 3.0 : ℝ) * c ^ (1.0 / 3.0 : ℝ)
      = (c ^ ((1:ℝ) / 3)) ^ (3 : ℕ) := by norm_num; ring
  rw [h, ← Real.rpow_natCast (c ^ ((1:ℝ)/3)) 3, ← Real.rpow_mul hc]
  norm_num

theorem rpow_gamma_inv {c : ℝ} (hc : 0 ≤ c) :
    (c ^ (2.4 : ℝ)) ^ (1 / 2.4 : ℝ) = c := by
  rw [← Real.rpow_mul hc]
  norm_num

theorem cbrt_nonneg (c : ℝ) : 0 ≤ c ^ (1.0 / 3.0 : ℝ) := by
  rcases le_or_lt 0 c with h | h
  · exact Real.rpow_nonneg h _
  · rw [Real.rpow_def_of_neg h]
    have h13 : (1.0 / 3.0 : ℝ) * Real.pi = Real.pi / 3 := by
      norm_num
      ring
    rw [h13, Real.cos_pi_div_three]
    positivity

/-! ## Auxiliary lemmas: sRGB channel codec evaluation -/

theorem srgbEncodeChannel_none : srgbEncodeChannel none = none := rfl

theorem srgbEncodeChannel_low {c : ℝ} (h : c ≤ 0.0031308) :
    srgbEncodeChannel (some c) = some (c * 12.92) := by
  simp only [srgbEncodeChannel]
  rw [if_pos h]
  rfl

theorem srgbEncodeChannel_high {c : ℝ} (h : ¬ c ≤ 0.0031308) :
    srgbEncodeChannel (some c) = some (1.055 * c ^ (1 / 2.4 : ℝ) - 0.055) := by
  simp only [srgbEncodeChannel]
  rw [if_neg h]
  have hc : (0:ℝ) ≤ c := by push_neg at h; linarith
  rw [jpow_some_of_nonneg _ hc, jmul_some, jsub_some]

theorem srgbDecodeChannel_low {c : ℝ} (h : c ≤ 0.04045) :
    srgbDecodeChannel c = c / 12.92 := by
  unfold srgbDecodeChannel
  rw [if_pos h]

theorem srgbDecodeChannel_high {c : ℝ} (h : ¬ c ≤ 0.04045) :
    srgbDecodeChannel c = ((c + 0.055) / 1.055) ^ (2.4 : ℝ) := by
  unfold srgbDecodeChannel
  rw [if_neg h]

theorem truncTowardZero_of_nonneg {x : ℝ} (h : 0 ≤ x) :
    truncTowardZero x = ⌊x⌋ := by
  unfold truncTowardZero
  rw [if_pos h]

theorem jsToInt32_some (a : ℝ) : jsToInt32 (some a) = int32wrap (truncTowardZero a) := rfl

theorem jsToInt32_none : jsToInt32 none = 0 := rfl

theorem roundChannel_eq {e : ℝ} {k : ℤ} (hk0 : 0 ≤ k) (hk : k < 256)
    (hlo : (k : ℝ) ≤ e * 255 + 0.5) (hhi : e * 255 + 0.5 < (k : ℝ) + 1) :
    jsToInt32 (jadd (jmul (some e) (some 255)) (some 0.5)) = k := by
  rw [jmul_some, jadd_some, jsToInt32_some]
  have hnn : (0:ℝ) ≤ e * 255 + 0.5 := le_trans (by exact_mod_cast hk0) hlo
  rw [truncTowardZero_of_nonneg hnn]
  have hfl : ⌊e * 255 + 0.5⌋ = k := by
    rw [Int.floor_eq_iff]
    constructor
    · exact hlo
    · exact_mod_cast hhi
  rw [hfl]
  exact int32wrap_eq_self (by omega) (by omega)

/-! ## Auxiliary lemmas: the parser against its specification -/

theorem char_le_iff_toNat (a b : Char) : a ≤ b ↔ a.toNat ≤ b.toNat := by
  rw [Char.le_def, UInt32.le_def, BitVec.le_def]
  rfl

theorem isHexDigitChar_iff (c : Char) : isHexDigitChar c = true ↔ specIsHexDigit c := by
  unfold isHexDigitChar specIsHexDigit
  simp only [Bool.or_eq_true, Bool.and_eq_true, decide_eq_true_eq]
  tauto

theorem hexDigitVal_eq_spec {c : Char} (h : isHexDigitChar c = true) :
    hexDigitVal c = specHexDigitVal c ∧ hexDigitVal c < 16 := by
  unfold isHexDigitChar at h
  simp only [Bool.or_eq_true, Bool.and_eq_true, decide_eq_true_eq] at h
  unfold hexDigitVal specHexDigitVal
  have t0 : ('0').toNat = 48 := rfl
  have t9 : ('9').toNat = 57 := rfl
  have tA : ('A').toNat = 65 := rfl
  have tF : ('F').toNat = 70 := rfl
  have ta : ('a').toNat = 97 := rfl
  have tf : ('f').toNat = 102 := rfl
  rcases h with (⟨h1, h2⟩ | ⟨h1, h2⟩) | ⟨h1, h2⟩
  · have k1 := (char_le_iff_toNat _ _).mp h1
    have k2 := (char_le_iff_toNat _ _).mp h2
    rw [t0] at k1; rw [t9] at k2
    rw [if_pos (by simp only [Bool.and_eq_true, decide_eq_true_eq]; exact ⟨h1, h2⟩)]
    rw [if_pos ⟨h1, h2⟩, t0]
    omega
  · have k1 := (char_le_iff_toNat _ _).mp h1
    have k2 := (char_le_iff_toNat _ _).mp h2
    rw [tA] at k1; rw [tF] at k2
    rw [if_neg (by
      simp only [Bool.and_eq_true, decide_eq_true_eq, not_and]
      intro hc1 hc2
      have := (char_le_iff_toNat _ _).mp hc2
      rw [t9] at this
      omega)]
    rw [if_pos (by simp only [Bool.and_eq_true, decide_eq_true_eq]; exact ⟨h1, h2⟩)]
    rw [if_neg (by
      intro hc
      have := (char_le_iff_toNat _ _).mp hc.2
      rw [t9] at this
      omega)]
    rw [if_neg (by
      intro hc
      have := (char_le_iff_toNat _ _).mp hc.1
      rw [ta] at this
      omega)]
    rw [if_pos ⟨h1, h2⟩, tA]
    omega
  · have k1 := (char_le_iff_toNat _ _).mp h1
    have k2 := (char_le_iff_toNat _ _).mp h2
    rw [ta] at k1; rw [tf] at k2
    rw [if_neg (by
      simp only [Bool.and_eq_true, decide_eq_true_eq, not_and]
      intro hc1 hc2
      have := (char_le_iff_toNat _ _).mp hc2
      rw [t9] at this
      omega)]
    rw [if_neg (by
      simp only [Bool.and_eq_true, decide_eq_true_eq, not_and]
      intro hc1 hc2
      have := (char_le_iff_toNat _ _).mp hc2
      rw [tF] at this
      omega)]
    rw [if_pos (by simp only [Bool.and_eq_true, decide_eq_true_eq]; exact ⟨h1, h2⟩)]
    rw [if_neg (by
      intro hc
      have := (char_le_iff_toNat _ _).mp hc.2
      rw [t9] at this
      omega)]
    rw [if_pos ⟨h1, h2⟩, ta]
    omega

theorem parse_foldl (l : List Char) (hl : ∀ c ∈ l, isHexDigitChar c = true) :
    ∀ acc, l.foldl (fun a c => 16 * a + hexDigitVal c) acc
      = acc * 16 ^ l.length + specHexDigitsVal l := by
  induction l with
  | nil => intro acc; simp [specHexDigitsVal]
  | cons c t ih =>
    intro acc
    simp only [List.foldl_cons, List.length_cons, specHexDigitsVal]
    rw [ih (fun d hd => hl d (List.mem_cons_of_mem _ hd))]
    rw [(hexDigitVal_eq_spec (hl c (List.mem_cons_self _ _))).1]
    ring

theorem specDigitsVal_lt (l : List Char) (hl : ∀ c ∈ l, isHexDigitChar c = true) :
    specHexDigitsVal l < 16 ^ l.length := by
  induction l with
  | nil => simp [specHexDigitsVal]
  | cons c t ih =>
    simp only [specHexDigitsVal, List.length_cons]
    have hv := hexDigitVal_eq_spec (hl c (List.mem_cons_self _ _))
    have hv16 : specHexDigitVal c < 16 := hv.1 ▸ hv.2
    have ht := ih (fun d hd => hl d (List.mem_cons_of_mem _ hd))
    calc specHexDigitVal c * 16 ^ t.length + specHexDigitsVal t
        < specHexDigitVal c * 16 ^ t.length + 16 ^ t.length := by omega
    _ = (specHexDigitVal c + 1) * 16 ^ t.length := by ring
    _ ≤ 16 * 16 ^ t.length := by
        have : specHexDigitVal c + 1 ≤ 16 := by omega
        exact Nat.mul_le_mul_right _ this
    _ = 16 ^ (t.length + 1) := by ring

theorem jsParseIntHex_eq_spec (l : List Char) (hl : ∀ c ∈ l, isHexDigitChar c = true) :
    jsParseIntHex l = specHexDigitsVal l := by
  unfold jsParseIntHex
  rw [parse_foldl l hl 0]
  omega

theorem hash_not_hexDigit : ¬ specIsHexDigit '#' := by
  unfold specIsHexDigit
  decide

theorem accepts_iff (s : String) : hexColorRegexAccepts s = true ↔ specHexFormat s := by
  unfold hexColorRegexAccepts specHexFormat
  by_cases hh : s.data.head? = some '#'
  · rw [if_pos hh]
    obtain ⟨tl, hdata⟩ : ∃ tl, s.data = '#' :: tl := by
      cases hd : s.data with
      | nil => rw [hd] at hh; simp at hh
      | cons a t =>
        rw [hd] at hh
        simp only [List.head?_cons, Option.some.injEq] at hh
        exact ⟨t, by rw [hh]⟩
    rw [hdata]
    simp only [List.tail_cons]
    constructor
    · intro hb
      simp only [Bool.and_eq_true, beq_iff_eq, List.all_eq_true] at hb
      right
      exact ⟨tl, rfl, hb.1, fun c hc => (isHexDigitChar_iff c).mp (hb.2 c hc)⟩
    · intro hsp
      rcases hsp with ⟨hlen, hall⟩ | ⟨t, ht, hlen, hall⟩
      · exact absurd (hall '#' (List.mem_cons_self _ _)) hash_not_hexDigit
      · obtain rfl : t = tl := by
          injection ht with h1 h2
          exact h2.symm
        simp only [Bool.and_eq_true, beq_iff_eq, List.all_eq_true]
        exact ⟨hlen, fun c hc => (isHexDigitChar_iff c).mpr (hall c hc)⟩
  · rw [if_neg hh]
    constructor
    · intro hb
      simp only [Bool.and_eq_true, beq_iff_eq, List.all_eq_true] at hb
      left
      exact ⟨hb.1, fun c hc => (isHexDigitChar_iff c).mp (hb.2 c hc)⟩
    · intro hsp
      rcases hsp with ⟨hlen, hall⟩ | ⟨t, ht, hlen, hall⟩
      · simp only [Bool.and_eq_true, beq_iff_eq, List.all_eq_true]
        exact ⟨hlen, fun c hc => (isHexDigitChar_iff c).mpr (hall c hc)⟩
      · rw [ht] at hh
        simp at hh

theorem digits_of_accepts (s : String) (hacc : hexColorRegexAccepts s = true) :
    (∀ c ∈ (if s.data.head? = some '#' then s.data.tail else s.data),
        isHexDigitChar c = true) ∧
    (if s.data.head? = some '#' then s.data.tail else s.data).length = 6 := by
  unfold hexColorRegexAccepts at hacc
  by_cases hh : s.data.head? = some '#'
  · rw [if_pos hh] at hacc ⊢
    simp only [Bool.and_eq_true, beq_iff_eq, List.all_eq_true] at hacc
    exact ⟨hacc.2, hacc.1⟩
  · rw [if_neg hh] at hacc ⊢
    simp only [Bool.and_eq_true, beq_iff_eq, List.all_eq_true] at hacc
    exact ⟨hacc.2, hacc.1⟩

/-- Claim C4: for every input string, `stringToHex` succeeds exactly when the
string is an optional leading `#` followed by exactly 6 case-insensitive hex
digits, returning the corresponding 24-bit value (e.g. `"#FF00FF"` yields
`0xFF00FF`), and fails (throws `InvalidFormat`, modelled as `none`) otherwise;
in particular `"zzzzzz"`, `"#12345"` and `""` all fail. -/
theorem c4_parse_hex_string :
    (∀ (s : String) (n : ℕ),
        stringToHex s = some n ↔ specHexFormat s ∧ n = specHexValue s ∧ n < 16 ^ 6) ∧
    stringToHex "#FF00FF" = some 0xFF00FF ∧
    stringToHex "zzzzzz" = none ∧
    stringToHex "#12345" = none ∧
    stringToHex "" = none := by
  refine ⟨?_, by decide, by decide, by decide, by decide⟩
  intro s n
  unfold stringToHex
  by_cases hacc : hexColorRegexAccepts s = true
  · rw [if_pos hacc]
    obtain ⟨hall, hlen⟩ := digits_of_accepts s hacc
    have hval : jsParseIntHex (if s.data.head? = some '#' then s.data.tail else s.data)
        = specHexValue s := by
      rw [jsParseIntHex_eq_spec _ hall]
      unfold specHexValue
      by_cases hh : s.data.head? = some '#'
      · rw [if_pos hh, if_pos hh]
      · rw [if_neg hh, if_neg hh]
    have hlt : jsParseIntHex (if s.data.head? = some '#' then s.data.tail else s.data)
        < 16 ^ 6 := by
      rw [jsParseIntHex_eq_spec _ hall]
      have := specDigitsVal_lt _ hall
      rw [hlen] at this
      exact this
    constructor
    · intro h
      injection h with h
      exact ⟨(accepts_iff s).mp hacc, by rw [← h, hval], by rw [← h]; exact hlt⟩
    · rintro ⟨hfmt, hn, hbound⟩
      rw [hval, ← hn]
  · rw [if_neg hacc]
    constructor
    · intro h; exact absurd h (by simp)
    · rintro ⟨hfmt, hn, hbound⟩
      exact absurd ((accepts_iff s).mpr hfmt) hacc

/-! ## Auxiliary lemmas and claim C10: hex formatting -/

theorem hexToString_channels (hex : ℤ) :
    hexToString hex =
      "#" ++ hexPad2 (hex / 65536 % 256) ++ hexPad2 (hex / 256 % 256)
          ++ hexPad2 (hex % 256) := by
  unfold hexToString
  rw [chanR_spec, chanG_spec, jsAnd_255]

/-- Claim C10: `hexToString` masks each extracted channel with `0xFF`, so for
every integer input (including out-of-range or corrupted packed values) it
returns `#` followed by exactly 6 lowercase hexadecimal digits, and its
output depends only on the low 24 bits of the input. -/
theorem c10_format_hex_string (hex : ℤ) :
    (hexToString hex).data.length = 7 ∧
    (hexToString hex).data.head? = some '#' ∧
    (∀ c ∈ (hexToString hex).data.tail, c ∈ lowercaseHexDigits) ∧
    hexToString hex = hexToString (hex % 2 ^ 24) := by
  have b1a : (0:ℤ) ≤ hex / 65536 % 256 := Int.emod_nonneg _ (by norm_num)
  have b1b : hex / 65536 % 256 < 256 := Int.emod_lt_of_pos _ (by norm_num)
  have b2a : (0:ℤ) ≤ hex / 256 % 256 := Int.emod_nonneg _ (by norm_num)
  have b2b : hex / 256 % 256 < 256 := Int.emod_lt_of_pos _ (by norm_num)
  have b3a : (0:ℤ) ≤ hex % 256 := Int.emod_nonneg _ (by norm_num)
  have b3b : hex % 256 < 256 := Int.emod_lt_of_pos _ (by norm_num)
  have s1 := hexPad2_shape b1a b1b
  have s2 := hexPad2_shape b2a b2b
  have s3 := hexPad2_shape b3a b3b
  have hdata : (hexToString hex).data =
      '#' :: ((hexPad2 (hex / 65536 % 256)).data ++ (hexPad2 (hex / 256 % 256)).data
        ++ (hexPad2 (hex % 256)).data) := by
    rw [hexToString_channels]
    simp [String.data_append]
  refine ⟨?_, ?_, ?_, ?_⟩
  · rw [hdata]
    simp only [List.length_cons, List.length_append, s1.1, s2.1, s3.1]
  · rw [hdata]
    rfl
  · rw [hdata]
    intro c hc
    simp only [List.tail_cons, List.mem_append] at hc
    rcases hc with (hc | hc) | hc
    · exact s1.2 c hc
    · exact s2.2 c hc
    · exact s3.2 c hc
  · rw [hexToString_channels, hexToString_channels]
    have e1 : hex % 2 ^ 24 / 65536 % 256 = hex / 65536 % 256 := by omega
    have e2 : hex % 2 ^ 24 / 256 % 256 = hex / 256 % 256 := by omega
    have e3 : hex % 2 ^ 24 % 256 = hex % 256 := by omega
    rw [e1, e2, e3]

/-! ## Auxiliary lemmas: NaN propagation and mixing symmetry -/

theorem rowDot_none (r : RVec3) (v : Vec3)
    (hv : v.x = none ∨ v.y = none ∨ v.z = none) :
    jadd (jadd (jmul (some r.x) v.x) (jmul (some r.y) v.y)) (jmul (some r.z) v.z) = none := by
  rcases hv with hv | hv | hv <;>
    simp [hv, jmul_none_right, jadd_none_left, jadd_none_right]

theorem mat3MultiplyVec3_none (m : Mat3) (v : Vec3)
    (hv : v.x = none ∨ v.y = none ∨ v.z = none) :
    mat3MultiplyVec3 m v = ⟨none, none, none⟩ := by
  unfold mat3MultiplyVec3
  rw [rowDot_none m.r0 v hv, rowDot_none m.r1 v hv, rowDot_none m.r2 v hv]

theorem mix_comp_none_left (p q : JNum) (h : ℝ) (hp : p = none) :
    jadd (jmul p (some (1 - h))) (jmul q (some h)) = none := by
  rw [hp, jmul_none_left, jadd_none_left]

theorem mix_comp_none_right (p q : JNum) (h : ℝ) (hq : q = none) :
    jadd (jmul p (some (1 - h))) (jmul q (some h)) = none := by
  rw [hq, jmul_none_left, jadd_none_right]

theorem cube_none {w : JNum} (hw : w = none) : jmul (jmul w w) w = none := by
  rw [hw, jmul_none_left, jmul_none_left]

theorem oklabMix_none_left (A B : Vec3) (h : ℝ)
    (hA : (powVec3 (mat3MultiplyVec3 kCONEtoLMS A) (1.0 / 3.0)).x = none ∨
          (powVec3 (mat3MultiplyVec3 kCONEtoLMS A) (1.0 / 3.0)).y = none ∨
          (powVec3 (mat3MultiplyVec3 kCONEtoLMS A) (1.0 / 3.0)).z = none) :
    oklabMix A B h = ⟨none, none, none⟩ := by
  simp only [oklabMix]
  apply mat3MultiplyVec3_none
  rcases hA with hA | hA | hA
  · left
    exact cube_none (mix_comp_none_left _ _ _ hA)
  · right; left
    exact cube_none (mix_comp_none_left _ _ _ hA)
  · right; right
    exact cube_none (mix_comp_none_left _ _ _ hA)

theorem oklabMix_none_right (A B : Vec3) (h : ℝ)
    (hB : (powVec3 (mat3MultiplyVec3 kCONEtoLMS B) (1.0 / 3.0)).x = none ∨
          (powVec3 (mat3MultiplyVec3 kCONEtoLMS B) (1.0 / 3.0)).y = none ∨
          (powVec3 (mat3MultiplyVec3 kCONEtoLMS B) (1.0 / 3.0)).z = none) :
    oklabMix A B h = ⟨none, none, none⟩ := by
  simp only [oklabMix]
  apply mat3MultiplyVec3_none
  rcases hB with hB | hB | hB
  · left
    exact cube_none (mix_comp_none_right _ _ _ hB)
  · right; left
    exact cube_none (mix_comp_none_right _ _ _ hB)
  · right; right
    exact cube_none (mix_comp_none_right _ _ _ hB)

theorem powVec3_comp_none_x (v : Vec3) {c : ℝ} (hx : v.x = some c) (hc : c < 0) :
    (powVec3 v (1.0 / 3.0)).x = none := by
  simp only [powVec3, hx]
  exact jpow_some_of_neg _ hc

theorem powVec3_comp_none_y (v : Vec3) {c : ℝ} (hy : v.y = some c) (hc : c < 0) :
    (powVec3 v (1.0 / 3.0)).y = none := by
  simp only [powVec3, hy]
  exact jpow_some_of_neg _ hc

theorem powVec3_comp_none_z (v : Vec3) {c : ℝ} (hz : v.z = some c) (hc : c < 0) :
    (powVec3 v (1.0 / 3.0)).z = none := by
  simp only [powVec3, hz]
  exact jpow_some_of_neg _ hc

theorem jhalf_comm (p q : JNum) :
    jadd (jmul p (some (1 - 0.5))) (jmul q (some 0.5))
      = jadd (jmul q (some (1 - 0.5))) (jmul p (some 0.5)) := by
  cases p with
  | none =>
    cases q with
    | none => rfl
    | some b => rfl
  | some a =>
    cases q with
    | none => rfl
    | some b =>
      show some _ = some _
      congr 1
      norm_num
      ring

theorem mix_half_comm (u v : Vec3) : mix u v 0.5 = mix v u 0.5 := by
  unfold mix
  simp only [Vec3.mk.injEq]
  exact ⟨jhalf_comm _ _, jhalf_comm _ _, jhalf_comm _ _⟩

/-- Claim C7: for in-gamut linear colors `A` and `B`, the mix at ratio one
half is symmetric in its two color arguments: `oklabMix A B 0.5` equals
`oklabMix B A 0.5` (exactly, in the idealized real model, hence in particular
componentwise within any floating-point tolerance). -/
theorem c7_midpoint_symmetry (a1 a2 a3 b1 b2 b3 : ℝ)
    (ha1 : 0 ≤ a1) (ha1' : a1 ≤ 1) (ha2 : 0 ≤ a2) (ha2' : a2 ≤ 1)
    (ha3 : 0 ≤ a3) (ha3' : a3 ≤ 1)
    (hb1 : 0 ≤ b1) (hb1' : b1 ≤ 1) (hb2 : 0 ≤ b2) (hb2' : b2 ≤ 1)
    (hb3 : 0 ≤ b3) (hb3' : b3 ≤ 1) :
    oklabMix (vecOfReals a1 a2 a3) (vecOfReals b1 b2 b3) (0.5 : ℝ)
      = oklabMix (vecOfReals b1 b2 b3) (vecOfReals a1 a2 a3) (0.5 : ℝ) := by
  simp only [oklabMix]
  rw [mix_half_comm]

/-- Witness for C7 at the in-gamut colors (1,0,0) and (0,0,1). -/
theorem c7_midpoint_symmetry_witness :
    ((0:ℝ) ≤ 1 ∧ (1:ℝ) ≤ 1 ∧ (0:ℝ) ≤ 0 ∧ (0:ℝ) ≤ 1) ∧
    oklabMix (vecOfReals 1 0 0) (vecOfReals 0 0 1) (0.5 : ℝ)
      = oklabMix (vecOfReals 0 0 1) (vecOfReals 1 0 0) (0.5 : ℝ) :=
  ⟨by norm_num,
   c7_midpoint_symmetry 1 0 0 0 0 1 (by norm_num) (by norm_num) (by norm_num)
     (by norm_num) (by norm_num) (by norm_num) (by norm_num) (by norm_num)
     (by norm_num) (by norm_num) (by norm_num) (by norm_num)⟩

/-- Claim C9: `oklabMix` does not clamp its cone-response intermediates: when
some component of `kCONEtoLMS` applied to an input color is negative, the
cube-root step (`powVec3 _ (1/3)`, i.e. `Math.pow` with a negative base)
produces `NaN` for that component, and the `NaN` propagates through the
interpolation and the back-transform into all components of the returned
color; no error is raised (all operations are total). -/
theorem c9_nan_propagation (A B : Vec3) (h : ℝ)
    (hAB : someConeNeg A ∨ someConeNeg B) :
    (∀ V : Vec3,
      (componentNeg (mat3MultiplyVec3 kCONEtoLMS V).x →
        (powVec3 (mat3MultiplyVec3 kCONEtoLMS V) (1.0 / 3.0)).x = none) ∧
      (componentNeg (mat3MultiplyVec3 kCONEtoLMS V).y →
        (powVec3 (mat3MultiplyVec3 kCONEtoLMS V) (1.0 / 3.0)).y = none) ∧
      (componentNeg (mat3MultiplyVec3 kCONEtoLMS V).z →
        (powVec3 (mat3MultiplyVec3 kCONEtoLMS V) (1.0 / 3.0)).z = none)) ∧
    oklabMix A B h = ⟨none, none, none⟩ := by
  constructor
  · intro V
    refine ⟨?_, ?_, ?_⟩
    · rintro ⟨c, hc, hcneg⟩
      exact powVec3_comp_none_x _ hc hcneg
    · rintro ⟨c, hc, hcneg⟩
      exact powVec3_comp_none_y _ hc hcneg
    · rintro ⟨c, hc, hcneg⟩
      exact powVec3_comp_none_z _ hc hcneg
  · rcases hAB with hA | hB
    · apply oklabMix_none_left
      rcases hA with ⟨c, hc, hn⟩ | ⟨c, hc, hn⟩ | ⟨c, hc, hn⟩
      · exact Or.inl (powVec3_comp_none_x _ hc hn)
      · exact Or.inr (Or.inl (powVec3_comp_none_y _ hc hn))
      · exact Or.inr (Or.inr (powVec3_comp_none_z _ hc hn))
    · apply oklabMix_none_right
      rcases hB with ⟨c, hc, hn⟩ | ⟨c, hc, hn⟩ | ⟨c, hc, hn⟩
      · exact Or.inl (powVec3_comp_none_x _ hc hn)
      · exact Or.inr (Or.inl (powVec3_comp_none_y _ hc hn))
      · exact Or.inr (Or.inr (powVec3_comp_none_z _ hc hn))

/-- Witness for C9 at the out-of-gamut color (-1, 0, 0) mixed with (0,0,1). -/
theorem c9_nan_propagation_witness :
    (someConeNeg (vecOfReals (-1) 0 0) ∨ someConeNeg (vecOfReals 0 0 1)) ∧
    oklabMix (vecOfReals (-1) 0 0) (vecOfReals 0 0 1) (1 / 2) = ⟨none, none, none⟩ := by
  have hx : (mat3MultiplyVec3 kCONEtoLMS (vecOfReals (-1) 0 0)).x
      = some (0.4121656120 * (-1) + 0.2118591070 * 0 + 0.0883097947 * 0) := rfl
  have hyp : someConeNeg (vecOfReals (-1) 0 0) ∨ someConeNeg (vecOfReals 0 0 1) :=
    Or.inl (Or.inl ⟨_, hx, by norm_num⟩)
  exact ⟨hyp, (c9_nan_propagation (vecOfReals (-1) 0 0) (vecOfReals 0 0 1) (1 / 2) hyp).2⟩

/-! ## Claim C1: driver structure -/

/-- Claim C1: for every pair of (parsable) endpoint colors and every supplied
midpoint count `m`, the driver produces exactly `m + 2` colors (effective
count `m + 1`, entries at indices `0..=m+1`), where the color at index `i` is
`oklabMix` of the two decoded endpoints at ratio `i / (m + 1)`; in particular
index 0 is the blend at ratio `h = 0` (the start endpoint of the path) and
the last index the blend at ratio `h = 1` (the end endpoint). -/
theorem c1_generate_sequence (startStr endStr : String) (m s e : ℕ)
    (hs : stringToHex startStr = some s) (he : stringToHex endStr = some e) :
    ∃ l : List MixEntry,
      cliCall startStr endStr (some m) = some l ∧
      l.length = m + 2 ∧
      (∀ i, ∀ hi : i < l.length,
        (l.get ⟨i, hi⟩).color =
          oklabMix (hexToLinearRGB (s : ℤ)) (hexToLinearRGB (e : ℤ))
            ((i : ℝ) / ((m : ℝ) + 1))) ∧
      (∀ h0 : 0 < l.length,
        (l.get ⟨0, h0⟩).color
          = oklabMix (hexToLinearRGB (s : ℤ)) (hexToLinearRGB (e : ℤ)) 0) ∧
      (∀ hl : m + 1 < l.length,
        (l.get ⟨m + 1, hl⟩).color
          = oklabMix (hexToLinearRGB (s : ℤ)) (hexToLinearRGB (e : ℤ)) 1) := by
  unfold cliCall
  rw [hs, he]
  simp only [Option.getD_some]
  have hcast : ((m : ℝ) + 1) = ((m + 1 : ℕ) : ℝ) := by push_cast; ring
  refine ⟨_, rfl, ?_, ?_, ?_, ?_⟩
  · simp [List.length_map, List.length_range]
  · intro i hi
    rw [List.get_map]
    simp only [List.get_range]
    rw [hcast]
  · intro h0
    rw [List.get_map]
    simp only [List.get_range]
    norm_num
  · intro hl
    rw [List.get_map]
    simp only [List.get_range]
    have hne : ((m + 1 : ℕ) : ℝ) ≠ 0 := by positivity
    have hdiv : ((m + 1 : ℕ) : ℝ) / ((m + 1 : ℕ) : ℝ) = 1 := div_self hne
    have hc2 : (((m + 1 : ℕ) : ℕ) : ℝ) = ((m + 1 : ℕ) : ℝ) := by norm_num
    rw [hc2, hdiv]

/-- Witness for C1: black to white with 0 supplied midpoints. -/
theorem c1_generate_sequence_witness :
    stringToHex "#000000" = some 0 ∧ stringToHex "#ffffff" = some 16777215 ∧
    (∃ l : List MixEntry,
      cliCall "#000000" "#ffffff" (some 0) = some l ∧
      l.length = 0 + 2 ∧
      (∀ i, ∀ hi : i < l.length,
        (l.get ⟨i, hi⟩).color =
          oklabMix (hexToLinearRGB ((0 : ℕ) : ℤ)) (hexToLinearRGB ((16777215 : ℕ) : ℤ))
            ((i : ℝ) / (((0 : ℕ) : ℝ) + 1))) ∧
      (∀ h0 : 0 < l.length,
        (l.get ⟨0, h0⟩).color
          = oklabMix (hexToLinearRGB ((0 : ℕ) : ℤ)) (hexToLinearRGB ((16777215 : ℕ) : ℤ)) 0) ∧
      (∀ hl : 0 + 1 < l.length,
        (l.get ⟨0 + 1, hl⟩).color
          = oklabMix (hexToLinearRGB ((0 : ℕ) : ℤ)) (hexToLinearRGB ((16777215 : ℕ) : ℤ)) 1)) :=
  ⟨by decide, by decide,
   c1_generate_sequence "#000000" "#ffffff" 0 0 16777215 (by decide) (by decide)⟩

/-! ## Auxiliary lemmas: the per-channel sRGB roundtrip -/

theorem pow24_gt_threshold {B : ℝ} (hB : 0.093 ≤ B) :
    ¬ B ^ (2.4 : ℝ) ≤ 0.0031308 := by
  push_neg
  have h93 : (0.0031308 : ℝ) < 0.093 ^ (2.4 : ℝ) := by
    have h1 : ((0.093 : ℝ) ^ (2.4 : ℝ)) ^ (5 : ℕ) = ((0.093 : ℝ) ^ (12 : ℕ)) := by
      rw [← Real.rpow_natCast ((0.093 : ℝ) ^ (2.4 : ℝ)) 5, ← Real.rpow_mul (by norm_num)]
      norm_num
    by_contra hcon
    push_neg at hcon
    have h2 : ((0.093 : ℝ) ^ (2.4 : ℝ)) ^ (5 : ℕ) ≤ (0.0031308 : ℝ) ^ (5 : ℕ) :=
      pow_le_pow_left (by positivity) hcon 5
    rw [h1] at h2
    norm_num at h2
  calc (0.0031308 : ℝ) < 0.093 ^ (2.4 : ℝ) := h93
  _ ≤ B ^ (2.4 : ℝ) := Real.rpow_le_rpow (by norm_num) hB (by norm_num)

theorem decode_encode_channel (k : ℤ) (hk0 : 0 ≤ k) (hk : k ≤ 255) :
    jsToInt32 (jadd (jmul (srgbEncodeChannel
      (some (srgbDecodeChannel ((k : ℝ) / 255)))) (some 255)) (some 0.5)) = k := by
  have hkR0 : (0 : ℝ) ≤ (k : ℝ) := by exact_mod_cast hk0
  have hkR : (k : ℝ) ≤ 255 := by exact_mod_cast hk
  have hmul : (k : ℝ) / 255 * 255 = (k : ℝ) := by field_simp
  by_cases hk10 : k ≤ 10
  · have hk10R : (k : ℝ) ≤ 10 := by exact_mod_cast hk10
    have hbranch : (k : ℝ) / 255 ≤ 0.04045 := by
      rw [div_le_iff (by norm_num)]
      linarith
    rw [srgbDecodeChannel_low hbranch]
    have hd : (k : ℝ) / 255 / 12.92 ≤ 0.0031308 := by
      rw [div_div, div_le_iff (by norm_num)]
      linarith
    rw [srgbEncodeChannel_low hd]
    have henc : (k : ℝ) / 255 / 12.92 * 12.92 = (k : ℝ) / 255 := by
      field_simp
      ring
    rw [henc]
    apply roundChannel_eq hk0 (by omega)
    · rw [hmul]
      linarith
    · rw [hmul]
      linarith
  · have hk11 : (11 : ℤ) ≤ k := by omega
    have hk11R : (11 : ℝ) ≤ (k : ℝ) := by exact_mod_cast hk11
    have hbranch : ¬ (k : ℝ) / 255 ≤ 0.04045 := by
      push_neg
      rw [lt_div_iff (by norm_num)]
      linarith
    rw [srgbDecodeChannel_high hbranch]
    have hBpos : (0 : ℝ) ≤ ((k : ℝ) / 255 + 0.055) / 1.055 := by positivity
    have hB93 : (0.093 : ℝ) ≤ ((k : ℝ) / 255 + 0.055) / 1.055 := by
      rw [le_div_iff (by norm_num)]
      linarith
    have hd := pow24_gt_threshold hB93
    rw [srgbEncodeChannel_high hd]
    rw [rpow_gamma_inv hBpos]
    have henc : 1.055 * (((k : ℝ) / 255 + 0.055) / 1.055) - 0.055 = (k : ℝ) / 255 := by
      field_simp
      ring
    rw [henc]
    apply roundChannel_eq hk0 (by omega)
    · rw [hmul]
      linarith
    · rw [hmul]
      linarith

theorem roundtrip_eq (hex : ℤ) (h0 : 0 ≤ hex) (h1 : hex ≤ 0xFFFFFF) :
    linearRGBtoHex (hexToLinearRGB hex) = hex := by
  have hkr0 : (0:ℤ) ≤ hex / 65536 % 256 := Int.emod_nonneg _ (by norm_num)
  have hkr1 : hex / 65536 % 256 ≤ 255 := by omega
  have hkg0 : (0:ℤ) ≤ hex / 256 % 256 := Int.emod_nonneg _ (by norm_num)
  have hkg1 : hex / 256 % 256 ≤ 255 := by omega
  have hkb0 : (0:ℤ) ≤ hex % 256 := Int.emod_nonneg _ (by norm_num)
  have hkb1 : hex % 256 ≤ 255 := by omega
  simp only [hexToLinearRGB, linearRGBtoHex]
  rw [chanR_spec, chanG_spec, jsAnd_255]
  rw [decode_encode_channel _ hkr0 hkr1, decode_encode_channel _ hkg0 hkg1,
      decode_encode_channel _ hkb0 hkb1]
  rw [packRGB _ _ _ hkr0 (by omega) hkg0 (by omega) hkb0 (by omega)]
  omega

/-- Claim C5: for every 24-bit integer `hex` in `[0x000000, 0xFFFFFF]`,
composing `hexToLinearRGB` with `linearRGBtoHex` returns a value whose three
8-bit channels each differ from the corresponding channel of `hex` by at most
1 (in this idealized real model the roundtrip is in fact exact). -/
theorem c5_srgb_roundtrip (hex : ℤ) (h0 : 0 ≤ hex) (h1 : hex ≤ 0xFFFFFF) :
    (jsAnd (jsShr (linearRGBtoHex (hexToLinearRGB hex)) 16) 255
      - jsAnd (jsShr hex 16) 255).natAbs ≤ 1 ∧
    (jsAnd (jsShr (linearRGBtoHex (hexToLinearRGB hex)) 8) 255
      - jsAnd (jsShr hex 8) 255).natAbs ≤ 1 ∧
    (jsAnd (linearRGBtoHex (hexToLinearRGB hex)) 255
      - jsAnd hex 255).natAbs ≤ 1 := by
  rw [roundtrip_eq hex h0 h1]
  simp

/-- Witness for C5 at `hex = 0x123456`. -/
theorem c5_srgb_roundtrip_witness :
    ((0 : ℤ) ≤ 0x123456 ∧ (0x123456 : ℤ) ≤ 0xFFFFFF) ∧
    ((jsAnd (jsShr (linearRGBtoHex (hexToLinearRGB 0x123456)) 16) 255
      - jsAnd (jsShr (0x123456 : ℤ) 16) 255).natAbs ≤ 1 ∧
    (jsAnd (jsShr (linearRGBtoHex (hexToLinearRGB 0x123456)) 8) 255
      - jsAnd (jsShr (0x123456 : ℤ) 8) 255).natAbs ≤ 1 ∧
    (jsAnd (linearRGBtoHex (hexToLinearRGB 0x123456)) 255
      - jsAnd (0x123456 : ℤ) 255).natAbs ≤ 1) :=
  ⟨⟨by norm_num, by norm_num⟩,
   c5_srgb_roundtrip 0x123456 (by norm_num) (by norm_num)⟩

/-! ## Auxiliary lemmas: evaluating the mixer on finite (non-NaN) colors -/

theorem coneIn_eval (r g b : ℝ) :
    mat3MultiplyVec3 kCONEtoLMS (vecOfReals r g b) =
      vecOfReals (0.4121656120 * r + 0.2118591070 * g + 0.0883097947 * b)
        (0.5362752080 * r + 0.6807189584 * g + 0.2818474174 * b)
        (0.0514575653 * r + 0.1074065790 * g + 0.6302613616 * b) := rfl

theorem coneOut_eval (r g b : ℝ) :
    mat3MultiplyVec3 kLMStoCONE (vecOfReals r g b) =
      vecOfReals (4.0767245293 * r + -1.2681437731 * g + -0.0041119885 * b)
        (-3.3072168827 * r + 2.6093323231 * g + -0.7034763098 * b)
        (0.2307590544 * r + -0.3411344290 * g + 1.7068625689 * b) := rfl

theorem mix_of_reals (u1 u2 u3 v1 v2 v3 h : ℝ) :
    mix (vecOfReals u1 u2 u3) (vecOfReals v1 v2 v3) h =
      vecOfReals (u1 * (1 - h) + v1 * h) (u2 * (1 - h) + v2 * h)
        (u3 * (1 - h) + v3 * h) := rfl

theorem cube_mk (t1 t2 t3 : ℝ) :
    (⟨jmul (jmul (vecOfReals t1 t2 t3).x (vecOfReals t1 t2 t3).x) (vecOfReals t1 t2 t3).x,
      jmul (jmul (vecOfReals t1 t2 t3).y (vecOfReals t1 t2 t3).y) (vecOfReals t1 t2 t3).y,
      jmul (jmul (vecOfReals t1 t2 t3).z (vecOfReals t1 t2 t3).z) (vecOfReals t1 t2 t3).z⟩
      : Vec3) = vecOfReals (t1 * t1 * t1) (t2 * t2 * t2) (t3 * t3 * t3) := rfl

theorem powVec3_of_reals (r g b e : ℝ) (hr : 0 ≤ r) (hg : 0 ≤ g) (hb : 0 ≤ b) :
    powVec3 (vecOfReals r g b) e = vecOfReals (r ^ e) (g ^ e) (b ^ e) := by
  unfold powVec3 vecOfReals
  rw [jpow_some_of_nonneg _ hr, jpow_some_of_nonneg _ hg, jpow_some_of_nonneg _ hb]

theorem oklabMix_zero_eval (a1 a2 a3 b1 b2 b3 : ℝ)
    (ha1 : 0 ≤ a1) (ha2 : 0 ≤ a2) (ha3 : 0 ≤ a3)
    (hb1 : 0 ≤ b1) (hb2 : 0 ≤ b2) (hb3 : 0 ≤ b3) :
    oklabMix (vecOfReals a1 a2 a3) (vecOfReals b1 b2 b3) 0 =
      vecOfReals
        (4.0767245293 * (0.4121656120 * a1 + 0.2118591070 * a2 + 0.0883097947 * a3)
          + -1.2681437731 * (0.5362752080 * a1 + 0.6807189584 * a2 + 0.2818474174 * a3)
          + -0.0041119885 * (0.0514575653 * a1 + 0.1074065790 * a2 + 0.6302613616 * a3))
        (-3.3072168827 * (0.4121656120 * a1 + 0.2118591070 * a2 + 0.0883097947 * a3)
          + 2.6093323231 * (0.5362752080 * a1 + 0.6807189584 * a2 + 0.2818474174 * a3)
          + -0.7034763098 * (0.0514575653 * a1 + 0.1074065790 * a2 + 0.6302613616 * a3))
        (0.2307590544 * (0.4121656120 * a1 + 0.2118591070 * a2 + 0.0883097947 * a3)
          + -0.3411344290 * (0.5362752080 * a1 + 0.6807189584 * a2 + 0.2818474174 * a3)
          + 1.7068625689 * (0.0514575653 * a1 + 0.1074065790 * a2 + 0.6302613616 * a3)) := by
  have hca1 : (0:ℝ) ≤ 0.4121656120 * a1 + 0.2118591070 * a2 + 0.0883097947 * a3 := by
    positivity
  have hca2 : (0:ℝ) ≤ 0.5362752080 * a1 + 0.6807189584 * a2 + 0.2818474174 * a3 := by
    positivity
  have hca3 : (0:ℝ) ≤ 0.0514575653 * a1 + 0.1074065790 * a2 + 0.6302613616 * a3 := by
    positivity
  have hcb1 : (0:ℝ) ≤ 0.4121656120 * b1 + 0.2118591070 * b2 + 0.0883097947 * b3 := by
    positivity
  have hcb2 : (0:ℝ) ≤ 0.5362752080 * b1 + 0.6807189584 * b2 + 0.2818474174 * b3 := by
    positivity
  have hcb3 : (0:ℝ) ≤ 0.0514575653 * b1 + 0.1074065790 * b2 + 0.6302613616 * b3 := by
    positivity
  simp only [oklabMix]
  rw [coneIn_eval a1 a2 a3, coneIn_eval b1 b2 b3,
      powVec3_of_reals _ _ _ _ hca1 hca2 hca3, powVec3_of_reals _ _ _ _ hcb1 hcb2 hcb3,
      mix_of_reals, cube_mk]
  have e1 : ∀ x y : ℝ, x * (1 - (0:ℝ)) + y * 0 = x := by intro x y; ring
  rw [e1, e1, e1, cbrt_cubed hca1, cbrt_cubed hca2, cbrt_cubed hca3, coneOut_eval]

theorem oklabMix_one_eval (a1 a2 a3 b1 b2 b3 : ℝ)
    (ha1 : 0 ≤ a1) (ha2 : 0 ≤ a2) (ha3 : 0 ≤ a3)
    (hb1 : 0 ≤ b1) (hb2 : 0 ≤ b2) (hb3 : 0 ≤ b3) :
    oklabMix (vecOfReals a1 a2 a3) (vecOfReals b1 b2 b3) 1 =
      vecOfReals
        (4.0767245293 * (0.4121656120 * b1 + 0.2118591070 * b2 + 0.0883097947 * b3)
          + -1.2681437731 * (0.5362752080 * b1 + 0.6807189584 * b2 + 0.2818474174 * b3)
          + -0.0041119885 * (0.0514575653 * b1 + 0.1074065790 * b2 + 0.6302613616 * b3))
        (-3.3072168827 * (0.4121656120 * b1 + 0.2118591070 * b2 + 0.0883097947 * b3)
          + 2.6093323231 * (0.5362752080 * b1 + 0.6807189584 * b2 + 0.2818474174 * b3)
          + -0.7034763098 * (0.0514575653 * b1 + 0.1074065790 * b2 + 0.6302613616 * b3))
        (0.2307590544 * (0.4121656120 * b1 + 0.2118591070 * b2 + 0.0883097947 * b3)
          + -0.3411344290 * (0.5362752080 * b1 + 0.6807189584 * b2 + 0.2818474174 * b3)
          + 1.7068625689 * (0.0514575653 * b1 + 0.1074065790 * b2 + 0.6302613616 * b3)) := by
  have hca1 : (0:ℝ) ≤ 0.4121656120 * a1 + 0.2118591070 * a2 + 0.0883097947 * a3 := by
    positivity
  have hca2 : (0:ℝ) ≤ 0.5362752080 * a1 + 0.6807189584 * a2 + 0.2818474174 * a3 := by
    positivity
  have hca3 : (0:ℝ) ≤ 0.0514575653 * a1 + 0.1074065790 * a2 + 0.6302613616 * a3 := by
    positivity
  have hcb1 : (0:ℝ) ≤ 0.4121656120 * b1 + 0.2118591070 * b2 + 0.0883097947 * b3 := by
    positivity
  have hcb2 : (0:ℝ) ≤ 0.5362752080 * b1 + 0.6807189584 * b2 + 0.2818474174 * b3 := by
    positivity
  have hcb3 : (0:ℝ) ≤ 0.0514575653 * b1 + 0.1074065790 * b2 + 0.6302613616 * b3 := by
    positivity
  simp only [oklabMix]
  rw [coneIn_eval a1 a2 a3, coneIn_eval b1 b2 b3,
      powVec3_of_reals _ _ _ _ hca1 hca2 hca3, powVec3_of_reals _ _ _ _ hcb1 hcb2 hcb3,
      mix_of_reals, cube_mk]
  have e1 : ∀ x y : ℝ, x * (1 - (1:ℝ)) + y * 1 = y := by intro x y; ring
  rw [e1, e1, e1, cbrt_cubed hcb1, cbrt_cubed hcb2, cbrt_cubed hcb3, coneOut_eval]

theorem abs_lin3_le (c1 c2 c3 a1 a2 a3 t : ℝ)
    (ha1 : 0 ≤ a1) (ha1' : a1 ≤ 1) (ha2 : 0 ≤ a2) (ha2' : a2 ≤ 1)
    (ha3 : 0 ≤ a3) (ha3' : a3 ≤ 1)
    (h : |c1| + |c2| + |c3| ≤ t) :
    |c1 * a1 + c2 * a2 + c3 * a3| ≤ t := by
  have h1 : |c1 * a1 + c2 * a2 + c3 * a3| ≤ |c1 * a1| + |c2 * a2| + |c3 * a3| :=
    calc |c1 * a1 + c2 * a2 + c3 * a3| ≤ |c1 * a1 + c2 * a2| + |c3 * a3| := abs_add _ _
    _ ≤ |c1 * a1| + |c2 * a2| + |c3 * a3| := by
        have := abs_add (c1 * a1) (c2 * a2)
        linarith
  have e1 : |c1 * a1| ≤ |c1| := by
    rw [abs_mul]
    have : |a1| ≤ 1 := by rw [abs_le]; constructor <;> linarith
    exact mul_le_of_le_one_right (abs_nonneg _) this
  have e2 : |c2 * a2| ≤ |c2| := by
    rw [abs_mul]
    have : |a2| ≤ 1 := by rw [abs_le]; constructor <;> linarith
    exact mul_le_of_le_one_right (abs_nonneg _) this
  have e3 : |c3 * a3| ≤ |c3| := by
    rw [abs_mul]
    have : |a3| ≤ 1 := by rw [abs_le]; constructor <;> linarith
    exact mul_le_of_le_one_right (abs_nonneg _) this
  linarith

theorem matDeviation_x (a1 a2 a3 : ℝ)
    (ha1 : 0 ≤ a1) (ha1' : a1 ≤ 1) (ha2 : 0 ≤ a2) (ha2' : a2 ≤ 1)
    (ha3 : 0 ≤ a3) (ha3' : a3 ≤ 1) :
    |(4.0767245293 * (0.4121656120 * a1 + 0.2118591070 * a2 + 0.0883097947 * a3)
      + -1.2681437731 * (0.5362752080 * a1 + 0.6807189584 * a2 + 0.2818474174 * a3)
      + -0.0041119885 * (0.0514575653 * a1 + 0.1074065790 * a2 + 0.6302613616 * a3))
      - a1| ≤ 1e-6 := by
  have hrw : (4.0767245293 * (0.4121656120 * a1 + 0.2118591070 * a2 + 0.0883097947 * a3)
      + -1.2681437731 * (0.5362752080 * a1 + 0.6807189584 * a2 + 0.2818474174 * a3)
      + -0.0041119885 * (0.0514575653 * a1 + 0.1074065790 * a2 + 0.6302613616 * a3))
      - a1 =
      (4.0767245293 * 0.4121656120 + -1.2681437731 * 0.5362752080
        + -0.0041119885 * 0.0514575653 - 1) * a1
      + (4.0767245293 * 0.2118591070 + -1.2681437731 * 0.6807189584
        + -0.0041119885 * 0.1074065790) * a2
      + (4.0767245293 * 0.0883097947 + -1.2681437731 * 0.2818474174
        + -0.0041119885 * 0.6302613616) * a3 := by ring
  rw [hrw]
  apply abs_lin3_le _ _ _ _ _ _ _ ha1 ha1' ha2 ha2' ha3 ha3'
  rw [abs_of_nonneg (by norm_num), abs_of_nonneg (by norm_num), abs_of_nonneg (by norm_num)]
  norm_num

theorem matDeviation_y (a1 a2 a3 : ℝ)
    (ha1 : 0 ≤ a1) (ha1' : a1 ≤ 1) (ha2 : 0 ≤ a2) (ha2' : a2 ≤ 1)
    (ha3 : 0 ≤ a3) (ha3' : a3 ≤ 1) :
    |(-3.3072168827 * (0.4121656120 * a1 + 0.2118591070 * a2 + 0.0883097947 * a3)
      + 2.6093323231 * (0.5362752080 * a1 + 0.6807189584 * a2 + 0.2818474174 * a3)
      + -0.7034763098 * (0.0514575653 * a1 + 0.1074065790 * a2 + 0.6302613616 * a3))
      - a2| ≤ 1e-6 := by
  have hrw : (-3.3072168827 * (0.4121656120 * a1 + 0.2118591070 * a2 + 0.0883097947 * a3)
      + 2.6093323231 * (0.5362752080 * a1 + 0.6807189584 * a2 + 0.2818474174 * a3)
      + -0.7034763098 * (0.0514575653 * a1 + 0.1074065790 * a2 + 0.6302613616 * a3))
      - a2 =
      (-3.3072168827 * 0.4121656120 + 2.6093323231 * 0.5362752080
        + -0.7034763098 * 0.0514575653) * a1
      + (-3.3072168827 * 0.2118591070 + 2.6093323231 * 0.6807189584
        + -0.7034763098 * 0.1074065790 - 1) * a2
      + (-3.3072168827 * 0.0883097947 + 2.6093323231 * 0.2818474174
        + -0.7034763098 * 0.6302613616) * a3 := by ring
  rw [hrw]
  apply abs_lin3_le _ _ _ _ _ _ _ ha1 ha1' ha2 ha2' ha3 ha3'
  rw [abs_of_nonpos (by norm_num), abs_of_nonpos (by norm_num), abs_of_nonpos (by norm_num)]
  norm_num

theorem matDeviation_z (a1 a2 a3 : ℝ)
    (ha1 : 0 ≤ a1) (ha1' : a1 ≤ 1) (ha2 : 0 ≤ a2) (ha2' : a2 ≤ 1)
    (ha3 : 0 ≤ a3) (ha3' : a3 ≤ 1) :
    |(0.2307590544 * (0.4121656120 * a1 + 0.2118591070 * a2 + 0.0883097947 * a3)
      + -0.3411344290 * (0.5362752080 * a1 + 0.6807189584 * a2 + 0.2818474174 * a3)
      + 1.7068625689 * (0.0514575653 * a1 + 0.1074065790 * a2 + 0.6302613616 * a3))
      - a3| ≤ 1e-6 := by
  have hrw : (0.2307590544 * (0.4121656120 * a1 + 0.2118591070 * a2 + 0.0883097947 * a3)
      + -0.3411344290 * (0.5362752080 * a1 + 0.6807189584 * a2 + 0.2818474174 * a3)
      + 1.7068625689 * (0.0514575653 * a1 + 0.1074065790 * a2 + 0.6302613616 * a3))
      - a3 =
      (0.2307590544 * 0.4121656120 + -0.3411344290 * 0.5362752080
        + 1.7068625689 * 0.0514575653) * a1
      + (0.2307590544 * 0.2118591070 + -0.3411344290 * 0.6807189584
        + 1.7068625689 * 0.1074065790) * a2
      + (0.2307590544 * 0.0883097947 + -0.3411344290 * 0.2818474174
        + 1.7068625689 * 0.6302613616 - 1) * a3 := by ring
  rw [hrw]
  apply abs_lin3_le _ _ _ _ _ _ _ ha1 ha1' ha2 ha2' ha3 ha3'
  rw [abs_of_nonneg (by norm_num), abs_of_nonneg (by norm_num), abs_of_nonpos (by norm_num)]
  norm_num

/-- Claim C6: for every two in-gamut linear-RGB colors `A` and `B`,
`oklabMix A B 0` equals `A` and `oklabMix A B 1` equals `B` componentwise
within a tolerance of `1e-6` (the constant matrices are only approximate
inverses, so the identity is not exact). -/
theorem c6_identity_mix (a1 a2 a3 b1 b2 b3 : ℝ)
    (ha1 : 0 ≤ a1) (ha1' : a1 ≤ 1) (ha2 : 0 ≤ a2) (ha2' : a2 ≤ 1)
    (ha3 : 0 ≤ a3) (ha3' : a3 ≤ 1)
    (hb1 : 0 ≤ b1) (hb1' : b1 ≤ 1) (hb2 : 0 ≤ b2) (hb2' : b2 ≤ 1)
    (hb3 : 0 ≤ b3) (hb3' : b3 ≤ 1) :
    (∃ c1 c2 c3,
      oklabMix (vecOfReals a1 a2 a3) (vecOfReals b1 b2 b3) 0 = vecOfReals c1 c2 c3 ∧
      |c1 - a1| ≤ 1e-6 ∧ |c2 - a2| ≤ 1e-6 ∧ |c3 - a3| ≤ 1e-6) ∧
    (∃ d1 d2 d3,
      oklabMix (vecOfReals a1 a2 a3) (vecOfReals b1 b2 b3) 1 = vecOfReals d1 d2 d3 ∧
      |d1 - b1| ≤ 1e-6 ∧ |d2 - b2| ≤ 1e-6 ∧ |d3 - b3| ≤ 1e-6) := by
  constructor
  · exact ⟨_, _, _, oklabMix_zero_eval a1 a2 a3 b1 b2 b3 ha1 ha2 ha3 hb1 hb2 hb3,
      matDeviation_x a1 a2 a3 ha1 ha1' ha2 ha2' ha3 ha3',
      matDeviation_y a1 a2 a3 ha1 ha1' ha2 ha2' ha3 ha3',
      matDeviation_z a1 a2 a3 ha1 ha1' ha2 ha2' ha3 ha3'⟩
  · exact ⟨_, _, _, oklabMix_one_eval a1 a2 a3 b1 b2 b3 ha1 ha2 ha3 hb1 hb2 hb3,
      matDeviation_x b1 b2 b3 hb1 hb1' hb2 hb2' hb3 hb3',
      matDeviation_y b1 b2 b3 hb1 hb1' hb2 hb2' hb3 hb3',
      matDeviation_z b1 b2 b3 hb1 hb1' hb2 hb2' hb3 hb3'⟩

/-- Witness for C6 at the in-gamut colors (1,0,0) and (0,0,1). -/
theorem c6_identity_mix_witness :
    ((0:ℝ) ≤ 1 ∧ (1:ℝ) ≤ 1 ∧ (0:ℝ) ≤ 0 ∧ (0:ℝ) ≤ 1) ∧
    ((∃ c1 c2 c3,
      oklabMix (vecOfReals 1 0 0) (vecOfReals 0 0 1) 0 = vecOfReals c1 c2 c3 ∧
      |c1 - 1| ≤ 1e-6 ∧ |c2 - 0| ≤ 1e-6 ∧ |c3 - 0| ≤ 1e-6) ∧
    (∃ d1 d2 d3,
      oklabMix (vecOfReals 1 0 0) (vecOfReals 0 0 1) 1 = vecOfReals d1 d2 d3 ∧
      |d1 - 0| ≤ 1e-6 ∧ |d2 - 0| ≤ 1e-6 ∧ |d3 - 1| ≤ 1e-6)) :=
  ⟨by norm_num,
   c6_identity_mix 1 0 0 0 0 1 (by norm_num) (by norm_num) (by norm_num) (by norm_num)
     (by norm_num) (by norm_num) (by norm_num) (by norm_num) (by norm_num) (by norm_num)
     (by norm_num) (by norm_num)⟩

/-! ## Auxiliary lemmas and claim C8: the encoder against its specification -/

theorem nat_ldiff_zero (m : ℕ) : Nat.ldiff m 0 = m := by
  apply Nat.eq_of_testBit_eq
  intro i
  rw [Nat.testBit_ldiff, Nat.zero_testBit]
  simp

theorem int_lor_zero (x : ℤ) : Int.lor x 0 = x := by
  cases x with
  | ofNat m =>
    show Int.lor (Int.ofNat m) (Int.ofNat 0) = Int.ofNat m
    have h : Int.lor (Int.ofNat m) (Int.ofNat 0) = Int.ofNat (m ||| 0) := rfl
    rw [h, Nat.or_zero]
  | negSucc m =>
    show Int.lor (Int.negSucc m) (Int.ofNat 0) = Int.negSucc m
    have h : Int.lor (Int.negSucc m) (Int.ofNat 0) = Int.negSucc (Nat.ldiff m 0) := rfl
    rw [h, nat_ldiff_zero]

theorem srgbEncodeChannel_eq_spec (c : ℝ) :
    srgbEncodeChannel (some c) = some (specSrgbEncode c) := by
  unfold specSrgbEncode
  by_cases h : c ≤ 0.0031308
  · rw [srgbEncodeChannel_low h, if_pos h]
  · rw [srgbEncodeChannel_high h, if_neg h]

theorem roundChannel_floor (e : ℝ) (hlo : 0 ≤ e * 255 + 0.5) (hhi : e * 255 + 0.5 < 2 ^ 31) :
    jsToInt32 (jadd (jmul (some e) (some 255)) (some 0.5)) = ⌊e * 255 + 0.5⌋ := by
  rw [jmul_some, jadd_some, jsToInt32_some, truncTowardZero_of_nonneg hlo]
  apply int32wrap_eq_self
  · have : (0:ℤ) ≤ ⌊e * 255 + 0.5⌋ := Int.floor_nonneg.mpr hlo
    omega
  · exact_mod_cast Int.floor_lt.mpr (by exact_mod_cast hhi)

theorem vecOfReals_x (r g b : ℝ) : (vecOfReals r g b).x = some r := rfl

theorem vecOfReals_y (r g b : ℝ) : (vecOfReals r g b).y = some g := rfl

theorem vecOfReals_z (r g b : ℝ) : (vecOfReals r g b).z = some b := rfl

/-- Claim C8: `linearRGBtoHex` applies the piecewise sRGB encode per channel,
scales by 255, adds 0.5 and truncates toward zero, then packs the three
results into 24 bits by shift/or with no clamping to `[0,255]`: whenever the
three rounded channels are in range the result agrees with the
specification formula `specLinearToHex`, and an out-of-range channel (here a
negative one) silently corrupts the packed value, which leaves the 24-bit
range entirely. -/
theorem c8_linear_to_hex_unclamped :
    (∀ r g b : ℝ,
      0 ≤ truncTowardZero (specSrgbEncode r * 255 + 0.5) →
      truncTowardZero (specSrgbEncode r * 255 + 0.5) ≤ 255 →
      0 ≤ truncTowardZero (specSrgbEncode g * 255 + 0.5) →
      truncTowardZero (specSrgbEncode g * 255 + 0.5) ≤ 255 →
      0 ≤ truncTowardZero (specSrgbEncode b * 255 + 0.5) →
      truncTowardZero (specSrgbEncode b * 255 + 0.5) ≤ 255 →
      linearRGBtoHex (vecOfReals r g b) = specLinearToHex r g b) ∧
    linearRGBtoHex (vecOfReals (-1) 0 0) = -215875584 ∧
    ¬ (0 ≤ linearRGBtoHex (vecOfReals (-1) 0 0) ∧
        linearRGBtoHex (vecOfReals (-1) 0 0) ≤ 0xFFFFFF) := by
  have heval : ∀ c : ℝ,
      jsToInt32 (jadd (jmul (srgbEncodeChannel (some c)) (some 255)) (some 0.5))
        = int32wrap (truncTowardZero (specSrgbEncode c * 255 + 0.5)) := by
    intro c
    rw [srgbEncodeChannel_eq_spec, jmul_some, jadd_some, jsToInt32_some]
  constructor
  · intro r g b hr0 hr1 hg0 hg1 hb0 hb1
    simp only [linearRGBtoHex, vecOfReals_x, vecOfReals_y, vecOfReals_z]
    rw [heval r, heval g, heval b]
    rw [int32wrap_eq_self (by omega) (by omega), int32wrap_eq_self (by omega) (by omega),
        int32wrap_eq_self (by omega) (by omega)]
    rw [packRGB _ _ _ hr0 (by omega) hg0 (by omega) hb0 (by omega)]
    unfold specLinearToHex
    norm_num
  · have henc : srgbEncodeChannel (some (-1 : ℝ)) = some ((-1) * 12.92) :=
      srgbEncodeChannel_low (by norm_num)
    have henc0 : srgbEncodeChannel (some (0 : ℝ)) = some (0 * 12.92) :=
      srgbEncodeChannel_low (by norm_num)
    have hr : jsToInt32 (jadd (jmul (srgbEncodeChannel (some (-1 : ℝ))) (some 255)) (some 0.5))
        = -3294 := by
      rw [henc, jmul_some, jadd_some, jsToInt32_some]
      have hx : ((-1 : ℝ) * 12.92 * 255 + 0.5) = -3294.1 := by norm_num
      rw [hx]
      have hneg : ¬ (0 : ℝ) ≤ -3294.1 := by norm_num
      unfold truncTowardZero
      rw [if_neg hneg]
      have hfl : ⌊(3294.1 : ℝ)⌋ = 3294 := by
        rw [Int.floor_eq_iff]
        norm_num
      have hneg2 : -(-3294.1 : ℝ) = 3294.1 := by norm_num
      rw [hneg2, hfl]
      apply int32wrap_eq_self <;> norm_num
    have hg : jsToInt32 (jadd (jmul (srgbEncodeChannel (some (0 : ℝ))) (some 255)) (some 0.5))
        = 0 := by
      rw [henc0, jmul_some, jadd_some, jsToInt32_some]
      have hx : ((0 : ℝ) * 12.92 * 255 + 0.5) = 0.5 := by norm_num
      rw [hx, truncTowardZero_of_nonneg (by norm_num)]
      have hfl : ⌊(0.5 : ℝ)⌋ = 0 := by
        rw [Int.floor_eq_iff]
        norm_num
      rw [hfl]
      apply int32wrap_eq_self <;> norm_num
    have hout : linearRGBtoHex (vecOfReals (-1) 0 0) = -215875584 := by
      simp only [linearRGBtoHex, vecOfReals_x, vecOfReals_y, vecOfReals_z]
      rw [hr, hg]
      have hshl1 : jsShl (-3294) 16 = -215875584 := by
        unfold jsShl
        rw [show int32wrap (-3294 : ℤ) = -3294 from
          int32wrap_eq_self (by norm_num) (by norm_num)]
        have he : ((2:ℤ) ^ (16 % 32 : ℕ)) = 65536 := by norm_num
        rw [he]
        have hm : (-3294 : ℤ) * 65536 = -215875584 := by norm_num
        rw [hm]
        exact int32wrap_eq_self (by norm_num) (by norm_num)
      have hshl2 : jsShl 0 8 = 0 := by
        unfold jsShl
        rw [show int32wrap (0 : ℤ) = 0 from
          int32wrap_eq_self (by norm_num) (by norm_num)]
        have he : ((2:ℤ) ^ (8 % 32 : ℕ)) = 256 := by norm_num
        rw [he]
        have hm : (0 : ℤ) * 256 = 0 := by norm_num
        rw [hm]
        exact int32wrap_eq_self (by norm_num) (by norm_num)
      rw [hshl1, hshl2]
      unfold jsOr
      rw [show int32wrap (-215875584 : ℤ) = -215875584 from
            int32wrap_eq_self (by norm_num) (by norm_num),
          show int32wrap (0 : ℤ) = 0 from
            int32wrap_eq_self (by norm_num) (by norm_num),
          int_lor_zero]
      rw [int_lor_zero]
      exact int32wrap_eq_self (by norm_num) (by norm_num)
    refine ⟨hout, ?_⟩
    rw [hout]
    norm_num

/-- Witness for C8 at the in-range color (0.001, 0.001, 0.001). -/
theorem c8_linear_to_hex_unclamped_witness :
    (0 ≤ truncTowardZero (specSrgbEncode 0.001 * 255 + 0.5) ∧
      truncTowardZero (specSrgbEncode 0.001 * 255 + 0.5) ≤ 255) ∧
    linearRGBtoHex (vecOfReals 0.001 0.001 0.001) = specLinearToHex 0.001 0.001 0.001 := by
  have h1 : specSrgbEncode 0.001 = 0.001 * 12.92 := by
    unfold specSrgbEncode
    rw [if_pos (by norm_num)]
  have h2 : (0.001 : ℝ) * 12.92 * 255 + 0.5 = 3.7946 := by norm_num
  have h3 : ⌊(3.7946 : ℝ)⌋ = 3 := by
    rw [Int.floor_eq_iff]
    norm_num
  have hb : 0 ≤ truncTowardZero (specSrgbEncode 0.001 * 255 + 0.5) ∧
      truncTowardZero (specSrgbEncode 0.001 * 255 + 0.5) ≤ 255 := by
    rw [h1, h2, truncTowardZero_of_nonneg (by norm_num), h3]
    norm_num
  exact ⟨hb,
    c8_linear_to_hex_unclamped.1 0.001 0.001 0.001 hb.1 hb.2 hb.1 hb.2 hb.1 hb.2⟩

/-! ## Auxiliary lemmas: decoding concrete endpoint colors -/

theorem decode_channel_zero : srgbDecodeChannel 0 = 0 := by
  rw [srgbDecodeChannel_low (by norm_num)]
  norm_num

theorem decode_channel_one : srgbDecodeChannel 1 = 1 := by
  rw [srgbDecodeChannel_high (by norm_num)]
  have h : ((1 : ℝ) + 0.055) / 1.055 = 1 := by norm_num
  rw [h, Real.one_rpow]

theorem hexToLinearRGB_concrete (hex : ℤ) (r g b : ℝ)
    (hr : srgbDecodeChannel (((hex / 65536 % 256 : ℤ) : ℝ) / 255) = r)
    (hg : srgbDecodeChannel (((hex / 256 % 256 : ℤ) : ℝ) / 255) = g)
    (hb : srgbDecodeChannel (((hex % 256 : ℤ) : ℝ) / 255) = b) :
    hexToLinearRGB hex = vecOfReals r g b := by
  unfold hexToLinearRGB vecOfReals
  rw [chanR_spec, chanG_spec, jsAnd_255, hr, hg, hb]

theorem decode_black : hexToLinearRGB ((0 : ℕ) : ℤ) = vecOfReals 0 0 0 := by
  apply hexToLinearRGB_concrete
  · have h : ((((0 : ℕ) : ℤ) / 65536 % 256 : ℤ) : ℝ) / 255 = 0 := by norm_num
    rw [h, decode_channel_zero]
  · have h : ((((0 : ℕ) : ℤ) / 256 % 256 : ℤ) : ℝ) / 255 = 0 := by norm_num
    rw [h, decode_channel_zero]
  · have h : ((((0 : ℕ) : ℤ) % 256 : ℤ) : ℝ) / 255 = 0 := by norm_num
    rw [h, decode_channel_zero]

theorem decode_white : hexToLinearRGB ((16777215 : ℕ) : ℤ) = vecOfReals 1 1 1 := by
  apply hexToLinearRGB_concrete
  · have h : ((((16777215 : ℕ) : ℤ) / 65536 % 256 : ℤ) : ℝ) / 255 = 1 := by norm_num
    rw [h, decode_channel_one]
  · have h : ((((16777215 : ℕ) : ℤ) / 256 % 256 : ℤ) : ℝ) / 255 = 1 := by norm_num
    rw [h, decode_channel_one]
  · have h : ((((16777215 : ℕ) : ℤ) % 256 : ℤ) : ℝ) / 255 = 1 := by norm_num
    rw [h, decode_channel_one]

theorem decode_red : hexToLinearRGB ((16711680 : ℕ) : ℤ) = vecOfReals 1 0 0 := by
  apply hexToLinearRGB_concrete
  · have h : ((((16711680 : ℕ) : ℤ) / 65536 % 256 : ℤ) : ℝ) / 255 = 1 := by norm_num
    rw [h, decode_channel_one]
  · have h : ((((16711680 : ℕ) : ℤ) / 256 % 256 : ℤ) : ℝ) / 255 = 0 := by norm_num
    rw [h, decode_channel_zero]
  · have h : ((((16711680 : ℕ) : ℤ) % 256 : ℤ) : ℝ) / 255 = 0 := by norm_num
    rw [h, decode_channel_zero]

theorem decode_blue : hexToLinearRGB ((255 : ℕ) : ℤ) = vecOfReals 0 0 1 := by
  apply hexToLinearRGB_concrete
  · have h : ((((255 : ℕ) : ℤ) / 65536 % 256 : ℤ) : ℝ) / 255 = 0 := by norm_num
    rw [h, decode_channel_zero]
  · have h : ((((255 : ℕ) : ℤ) / 256 % 256 : ℤ) : ℝ) / 255 = 0 := by norm_num
    rw [h, decode_channel_zero]
  · have h : ((((255 : ℕ) : ℤ) % 256 : ℤ) : ℝ) / 255 = 1 := by norm_num
    rw [h, decode_channel_one]

theorem cliCall_m1 (sStr eStr : String) (s e : ℕ)
    (hs : stringToHex sStr = some s) (he : stringToHex eStr = some e) :
    cliCall sStr eStr (some 1) = some
      [⟨oklabMix (hexToLinearRGB (s : ℤ)) (hexToLinearRGB (e : ℤ))
          (((0 : ℕ) : ℝ) / ((2 : ℕ) : ℝ)),
        linearRGBtoHex (oklabMix (hexToLinearRGB (s : ℤ)) (hexToLinearRGB (e : ℤ))
          (((0 : ℕ) : ℝ) / ((2 : ℕ) : ℝ))),
        hexToString (linearRGBtoHex (oklabMix (hexToLinearRGB (s : ℤ))
          (hexToLinearRGB (e : ℤ)) (((0 : ℕ) : ℝ) / ((2 : ℕ) : ℝ))))⟩,
       ⟨oklabMix (hexToLinearRGB (s : ℤ)) (hexToLinearRGB (e : ℤ))
          (((1 : ℕ) : ℝ) / ((2 : ℕ) : ℝ)),
        linearRGBtoHex (oklabMix (hexToLinearRGB (s : ℤ)) (hexToLinearRGB (e : ℤ))
          (((1 : ℕ) : ℝ) / ((2 : ℕ) : ℝ))),
        hexToString (linearRGBtoHex (oklabMix (hexToLinearRGB (s : ℤ))
          (hexToLinearRGB (e : ℤ)) (((1 : ℕ) : ℝ) / ((2 : ℕ) : ℝ))))⟩,
       ⟨oklabMix (hexToLinearRGB (s : ℤ)) (hexToLinearRGB (e : ℤ))
          (((2 : ℕ) : ℝ) / ((2 : ℕ) : ℝ)),
        linearRGBtoHex (oklabMix (hexToLinearRGB (s : ℤ)) (hexToLinearRGB (e : ℤ))
          (((2 : ℕ) : ℝ) / ((2 : ℕ) : ℝ))),
        hexToString (linearRGBtoHex (oklabMix (hexToLinearRGB (s : ℤ))
          (hexToLinearRGB (e : ℤ)) (((2 : ℕ) : ℝ) / ((2 : ℕ) : ℝ))))⟩] := by
  unfold cliCall
  rw [hs, he]
  rfl

/-! ## Auxiliary lemmas: encoding the endpoint blends of black and white -/

theorem encode_zero_channel :
    jsToInt32 (jadd (jmul (srgbEncodeChannel (some 0)) (some 255)) (some 0.5)) = 0 := by
  rw [srgbEncodeChannel_low (by norm_num)]
  apply roundChannel_eq (by norm_num) (by norm_num)
  · norm_num
  · norm_num

theorem encode_near_one_channel (w : ℝ) (hlo : 0.9999999 ≤ w) (hhi : w ≤ 1.0000001) :
    jsToInt32 (jadd (jmul (srgbEncodeChannel (some w)) (some 255)) (some 0.5)) = 255 := by
  have hw0 : (0:ℝ) < w := by linarith
  rw [srgbEncodeChannel_high (not_le.mpr (by linarith))]
  rcases le_or_lt w 1 with hw1 | hw1
  · have hp_lo : w ≤ w ^ (1/2.4 : ℝ) := by
      have h := Real.rpow_le_rpow_of_exponent_ge hw0 hw1 (show (1/2.4 : ℝ) ≤ 1 by norm_num)
      rwa [Real.rpow_one] at h
    have hp_hi : w ^ (1/2.4 : ℝ) ≤ 1 := Real.rpow_le_one (by linarith) hw1 (by norm_num)
    apply roundChannel_eq (by norm_num) (by norm_num)
    · linarith
    · linarith
  · have hp_lo : 1 ≤ w ^ (1/2.4 : ℝ) := by
      have h := Real.rpow_le_rpow zero_le_one (le_of_lt hw1) (show (0:ℝ) ≤ 1/2.4 by norm_num)
      rwa [Real.one_rpow] at h
    have hp_hi : w ^ (1/2.4 : ℝ) ≤ w := by
      have h := Real.rpow_le_rpow_of_exponent_le (le_of_lt hw1)
        (show (1/2.4 : ℝ) ≤ 1 by norm_num)
      rwa [Real.rpow_one] at h
    apply roundChannel_eq (by norm_num) (by norm_num)
    · linarith
    · linarith

theorem black_hex :
    linearRGBtoHex (oklabMix (vecOfReals 0 0 0) (vecOfReals 1 1 1) 0) = 0 := by
  rw [oklabMix_zero_eval 0 0 0 1 1 1 (by norm_num) (by norm_num) (by norm_num)
    (by norm_num) (by norm_num) (by norm_num)]
  norm_num
  simp only [linearRGBtoHex, vecOfReals_x, vecOfReals_y, vecOfReals_z]
  rw [encode_zero_channel]
  rw [packRGB 0 0 0 (by norm_num) (by norm_num) (by norm_num) (by norm_num)
    (by norm_num) (by norm_num)]
  norm_num

theorem white_hex :
    linearRGBtoHex (oklabMix (vecOfReals 0 0 0) (vecOfReals 1 1 1) 1) = 16777215 := by
  rw [oklabMix_one_eval 0 0 0 1 1 1 (by norm_num) (by norm_num) (by norm_num)
    (by norm_num) (by norm_num) (by norm_num)]
  simp only [linearRGBtoHex, vecOfReals_x, vecOfReals_y, vecOfReals_z]
  rw [encode_near_one_channel _ (by norm_num) (by norm_num),
      encode_near_one_channel _ (by norm_num) (by norm_num),
      encode_near_one_channel _ (by norm_num) (by norm_num)]
  rw [packRGB 255 255 255 (by norm_num) (by norm_num) (by norm_num) (by norm_num)
    (by norm_num) (by norm_num)]
  norm_num

/-- Counterexample to claim C2 as stated: with the default midpoint count the
driver prints 3 colors, not 4. -/
theorem c2_counterexample :
    (cliCall "#000000" "#FFFFFF" none).map List.length = some 3 ∧
    (cliCall "#000000" "#FFFFFF" none).map List.length ≠ some 4 := by
  have hd : cliCall "#000000" "#FFFFFF" none = cliCall "#000000" "#FFFFFF" (some 1) := rfl
  have h := cliCall_m1 "#000000" "#FFFFFF" 0 16777215 (by decide) (by decide)
  rw [hd, h]
  exact ⟨rfl, by simp⟩

/-- Claim C2, amended: when the midpoint count is not supplied it defaults
to 1, and the default produces 3 colors in total: the start color, one
intermediate blend (at ratio one half), and the end color; e.g. black to
white with the default yields `"#000000"`, one intermediate blend, and
`"#ffffff"`. (The claim originally said 4 colors with two intermediate
blends; the loop `i = 0..=m+1` emits `m + 2 = 3` entries for the default
`m = 1`.) -/
theorem c2_default_three_colors :
    (∀ sStr eStr : String, cliCall sStr eStr none = cliCall sStr eStr (some 1)) ∧
    (∃ e0 e1 e2 : MixEntry,
      cliCall "#000000" "#FFFFFF" none = some [e0, e1, e2] ∧
      e0.str = "#000000" ∧
      e1.color = oklabMix (hexToLinearRGB ((0 : ℕ) : ℤ))
        (hexToLinearRGB ((16777215 : ℕ) : ℤ)) (1 / 2) ∧
      e2.str = "#ffffff") := by
  refine ⟨fun _ _ => rfl, ?_⟩
  have hd : cliCall "#000000" "#FFFFFF" none = cliCall "#000000" "#FFFFFF" (some 1) := rfl
  have h := cliCall_m1 "#000000" "#FFFFFF" 0 16777215 (by decide) (by decide)
  refine ⟨_, _, _, hd.trans h, ?_, ?_, ?_⟩
  · show hexToString (linearRGBtoHex (oklabMix (hexToLinearRGB ((0 : ℕ) : ℤ))
      (hexToLinearRGB ((16777215 : ℕ) : ℤ)) (((0 : ℕ) : ℝ) / ((2 : ℕ) : ℝ)))) = "#000000"
    rw [decode_black, decode_white,
      show (((0 : ℕ) : ℝ) / ((2 : ℕ) : ℝ)) = (0 : ℝ) by norm_num, black_hex]
    decide
  · show oklabMix (hexToLinearRGB ((0 : ℕ) : ℤ)) (hexToLinearRGB ((16777215 : ℕ) : ℤ))
      (((1 : ℕ) : ℝ) / ((2 : ℕ) : ℝ)) = oklabMix (hexToLinearRGB ((0 : ℕ) : ℤ))
      (hexToLinearRGB ((16777215 : ℕ) : ℤ)) (1 / 2)
    norm_num
  · show hexToString (linearRGBtoHex (oklabMix (hexToLinearRGB ((0 : ℕ) : ℤ))
      (hexToLinearRGB ((16777215 : ℕ) : ℤ)) (((2 : ℕ) : ℝ) / ((2 : ℕ) : ℝ)))) = "#ffffff"
    rw [decode_black, decode_white,
      show (((2 : ℕ) : ℝ) / ((2 : ℕ) : ℝ)) = (1 : ℝ) by norm_num, white_hex]
    decide

/-! ## Auxiliary lemmas: interval bounds for the red/blue midpoint blend -/

theorem cube_le_cube {a b : ℝ} (ha : 0 ≤ a) (hab : a ≤ b) : a * a * a ≤ b * b * b := by
  have hb : 0 ≤ b := le_trans ha hab
  nlinarith [mul_nonneg ha ha, mul_nonneg hb hb, mul_nonneg ha hb, sq_nonneg (a + b),
    sq_nonneg (a - b)]

theorem le_rpow_inv24 {c l : ℝ} (hc : 0 ≤ c) (hl : 0 ≤ l) (h : l ^ 12 ≤ c ^ 5) :
    l ≤ c ^ (1 / 2.4 : ℝ) := by
  have h1 : l ≤ (c ^ (5 : ℕ)) ^ ((1 : ℝ) / 12) :=
    le_rpow_of_pow_le ((1 : ℝ) / 12) hl (by norm_num) (by norm_num) h
  calc l ≤ (c ^ (5 : ℕ)) ^ ((1 : ℝ) / 12) := h1
  _ = (c ^ ((5 : ℕ) : ℝ)) ^ ((1 : ℝ) / 12) := by rw [Real.rpow_natCast]
  _ = c ^ (((5 : ℕ) : ℝ) * ((1 : ℝ) / 12)) := by rw [← Real.rpow_mul hc]
  _ = c ^ (1 / 2.4 : ℝ) := by norm_num

theorem roundChannel_bounds (e : ℝ) (lo hi : ℤ) (hlo0 : 0 ≤ lo) (hhi255 : hi ≤ 255)
    (hlo : (lo : ℝ) ≤ e * 255 + 0.5) (hhi : e * 255 + 0.5 < (hi : ℝ) + 1) :
    ∃ k : ℤ, jsToInt32 (jadd (jmul (some e) (some 255)) (some 0.5)) = k ∧
      lo ≤ k ∧ k ≤ hi := by
  have hx0 : (0 : ℝ) ≤ e * 255 + 0.5 := le_trans (by exact_mod_cast hlo0) hlo
  have hfl_lo : lo ≤ ⌊e * 255 + 0.5⌋ := Int.le_floor.mpr hlo
  have hfl_hi : ⌊e * 255 + 0.5⌋ ≤ hi := by
    have hlt : ⌊e * 255 + 0.5⌋ < hi + 1 := Int.floor_lt.mpr (by push_cast; exact hhi)
    omega
  refine ⟨⌊e * 255 + 0.5⌋, ?_, hfl_lo, hfl_hi⟩
  rw [jmul_some, jadd_some, jsToInt32_some, truncTowardZero_of_nonneg hx0]
  exact int32wrap_eq_self (by omega) (by omega)

theorem mid_red_blue :
    oklabMix (vecOfReals 1 0 0) (vecOfReals 0 0 1) (1 / 2) =
      vecOfReals
        (4.0767245293 * ((0.4121656120 ^ (1.0 / 3.0 : ℝ) * (1 - 1 / 2)
            + 0.0883097947 ^ (1.0 / 3.0 : ℝ) * (1 / 2)) * (0.4121656120 ^ (1.0 / 3.0 : ℝ) * (1 - 1 / 2)
            + 0.0883097947 ^ (1.0 / 3.0 : ℝ) * (1 / 2)) * (0.4121656120 ^ (1.0 / 3.0 : ℝ) * (1 - 1 / 2)
            + 0.0883097947 ^ (1.0 / 3.0 : ℝ) * (1 / 2)))
          + -1.2681437731 * ((0.5362752080 ^ (1.0 / 3.0 : ℝ) * (1 - 1 / 2)
            + 0.2818474174 ^ (1.0 / 3.0 : ℝ) * (1 / 2)) * (0.5362752080 ^ (1.0 / 3.0 : ℝ) * (1 - 1 / 2)
            + 0.2818474174 ^ (1.0 / 3.0 : ℝ) * (1 / 2)) * (0.5362752080 ^ (1.0 / 3.0 : ℝ) * (1 - 1 / 2)
            + 0.2818474174 ^ (1.0 / 3.0 : ℝ) * (1 / 2)))
          + -0.0041119885 * ((0.0514575653 ^ (1.0 / 3.0 : ℝ) * (1 - 1 / 2)
            + 0.6302613616 ^ (1.0 / 3.0 : ℝ) * (1 / 2)) * (0.0514575653 ^ (1.0 / 3.0 : ℝ) * (1 - 1 / 2)
            + 0.6302613616 ^ (1.0 / 3.0 : ℝ) * (1 / 2)) * (0.0514575653 ^ (1.0 / 3.0 : ℝ) * (1 - 1 / 2)
            + 0.6302613616 ^ (1.0 / 3.0 : ℝ) * (1 / 2))))
        (-3.3072168827 * ((0.4121656120 ^ (1.0 / 3.0 : ℝ) * (1 - 1 / 2)
            + 0.0883097947 ^ (1.0 / 3.0 : ℝ) * (1 / 2)) * (0.4121656120 ^ (1.0 / 3.0 : ℝ) * (1 - 1 / 2)
            + 0.0883097947 ^ (1.0 / 3.0 : ℝ) * (1 / 2)) * (0.4121656120 ^ (1.0 / 3.0 : ℝ) * (1 - 1 / 2)
            + 0.0883097947 ^ (1.0 / 3.0 : ℝ) * (1 / 2)))
          + 2.6093323231 * ((0.5362752080 ^ (1.0 / 3.0 : ℝ) * (1 - 1 / 2)
            + 0.2818474174 ^ (1.0 / 3.0 : ℝ) * (1 / 2)) * (0.5362752080 ^ (1.0 / 3.0 : ℝ) * (1 - 1 / 2)
            + 0.2818474174 ^ (1.0 / 3.0 : ℝ) * (1 / 2)) * (0.5362752080 ^ (1.0 / 3.0 : ℝ) * (1 - 1 / 2)
            + 0.2818474174 ^ (1.0 / 3.0 : ℝ) * (1 / 2)))
          + -0.7034763098 * ((0.0514575653 ^ (1.0 / 3.0 : ℝ) * (1 - 1 / 2)
            + 0.6302613616 ^ (1.0 / 3.0 : ℝ) * (1 / 2)) * (0.0514575653 ^ (1.0 / 3.0 : ℝ) * (1 - 1 / 2)
            + 0.6302613616 ^ (1.0 / 3.0 : ℝ) * (1 / 2)) * (0.0514575653 ^ (1.0 / 3.0 : ℝ) * (1 - 1 / 2)
            + 0.6302613616 ^ (1.0 / 3.0 : ℝ) * (1 / 2))))
        (0.2307590544 * ((0.4121656120 ^ (1.0 / 3.0 : ℝ) * (1 - 1 / 2)
            + 0.0883097947 ^ (1.0 / 3.0 : ℝ) * (1 / 2)) * (0.4121656120 ^ (1.0 / 3.0 : ℝ) * (1 - 1 / 2)
            + 0.0883097947 ^ (1.0 / 3.0 : ℝ) * (1 / 2)) * (0.4121656120 ^ (1.0 / 3.0 : ℝ) * (1 - 1 / 2)
            + 0.0883097947 ^ (1.0 / 3.0 : ℝ) * (1 / 2)))
          + -0.3411344290 * ((0.5362752080 ^ (1.0 / 3.0 : ℝ) * (1 - 1 / 2)
            + 0.2818474174 ^ (1.0 / 3.0 : ℝ) * (1 / 2)) * (0.5362752080 ^ (1.0 / 3.0 : ℝ) * (1 - 1 / 2)
            + 0.2818474174 ^ (1.0 / 3.0 : ℝ) * (1 / 2)) * (0.5362752080 ^ (1.0 / 3.0 : ℝ) * (1 - 1 / 2)
            + 0.2818474174 ^ (1.0 / 3.0 : ℝ) * (1 / 2)))
          + 1.7068625689 * ((0.0514575653 ^ (1.0 / 3.0 : ℝ) * (1 - 1 / 2)
            + 0.6302613616 ^ (1.0 / 3.0 : ℝ) * (1 / 2)) * (0.0514575653 ^ (1.0 / 3.0 : ℝ) * (1 - 1 / 2)
            + 0.6302613616 ^ (1.0 / 3.0 : ℝ) * (1 / 2)) * (0.0514575653 ^ (1.0 / 3.0 : ℝ) * (1 - 1 / 2)
            + 0.6302613616 ^ (1.0 / 3.0 : ℝ) * (1 / 2)))) := by
  simp only [oklabMix]
  rw [coneIn_eval 1 0 0, coneIn_eval 0 0 1]
  rw [show (0.4121656120 * 1 + 0.2118591070 * 0 + 0.0883097947 * 0 : ℝ) = 0.4121656120
        by norm_num,
      show (0.5362752080 * 1 + 0.6807189584 * 0 + 0.2818474174 * 0 : ℝ) = 0.5362752080
        by norm_num,
      show (0.0514575653 * 1 + 0.1074065790 * 0 + 0.6302613616 * 0 : ℝ) = 0.0514575653
        by norm_num,
      show (0.4121656120 * 0 + 0.2118591070 * 0 + 0.0883097947 * 1 : ℝ) = 0.0883097947
        by norm_num,
      show (0.5362752080 * 0 + 0.6807189584 * 0 + 0.2818474174 * 1 : ℝ) = 0.2818474174
        by norm_num,
      show (0.0514575653 * 0 + 0.1074065790 * 0 + 0.6302613616 * 1 : ℝ) = 0.6302613616
        by norm_num]
  rw [powVec3_of_reals _ _ _ _ (by norm_num) (by norm_num) (by norm_num),
      powVec3_of_reals _ _ _ _ (by norm_num) (by norm_num) (by norm_num)]
  rw [mix_of_reals, cube_mk, coneOut_eval]

set_option maxHeartbeats 2000000 in
theorem mid_red_blue_hex :
    ∃ hx : ℤ,
      linearRGBtoHex (oklabMix (vecOfReals 1 0 0) (vecOfReals 0 0 1) (1 / 2)) = hx ∧
      0 ≤ hx ∧ hx ≤ 16777215 ∧ 112 ≤ hx / 256 % 256 ∧ hx ≠ 8388736 := by
  rw [mid_red_blue]
  set T1 : ℝ := 0.4121656120 ^ (1.0 / 3.0 : ℝ) * (1 - 1 / 2)
    + 0.0883097947 ^ (1.0 / 3.0 : ℝ) * (1 / 2) with hT1def
  set T2 : ℝ := 0.5362752080 ^ (1.0 / 3.0 : ℝ) * (1 - 1 / 2)
    + 0.2818474174 ^ (1.0 / 3.0 : ℝ) * (1 / 2) with hT2def
  set T3 : ℝ := 0.0514575653 ^ (1.0 / 3.0 : ℝ) * (1 - 1 / 2)
    + 0.6302613616 ^ (1.0 / 3.0 : ℝ) * (1 / 2) with hT3def
  clear_value T1 T2 T3
  have c1l : (0.744 : ℝ) ≤ 0.4121656120 ^ (1.0 / 3.0 : ℝ) := le_cbrt (by norm_num) (by norm_num)
  have c1u : (0.4121656120 : ℝ) ^ (1.0 / 3.0 : ℝ) ≤ 0.745 :=
    cbrt_le (by norm_num) (by norm_num) (by norm_num)
  have c2l : (0.812 : ℝ) ≤ 0.5362752080 ^ (1.0 / 3.0 : ℝ) := le_cbrt (by norm_num) (by norm_num)
  have c2u : (0.5362752080 : ℝ) ^ (1.0 / 3.0 : ℝ) ≤ 0.813 :=
    cbrt_le (by norm_num) (by norm_num) (by norm_num)
  have c3l : (0.371 : ℝ) ≤ 0.0514575653 ^ (1.0 / 3.0 : ℝ) := le_cbrt (by norm_num) (by norm_num)
  have c3u : (0.0514575653 : ℝ) ^ (1.0 / 3.0 : ℝ) ≤ 0.372 :=
    cbrt_le (by norm_num) (by norm_num) (by norm_num)
  have c4l : (0.445 : ℝ) ≤ 0.0883097947 ^ (1.0 / 3.0 : ℝ) := le_cbrt (by norm_num) (by norm_num)
  have c4u : (0.0883097947 : ℝ) ^ (1.0 / 3.0 : ℝ) ≤ 0.446 :=
    cbrt_le (by norm_num) (by norm_num) (by norm_num)
  have c5l : (0.655 : ℝ) ≤ 0.2818474174 ^ (1.0 / 3.0 : ℝ) := le_cbrt (by norm_num) (by norm_num)
  have c5u : (0.2818474174 : ℝ) ^ (1.0 / 3.0 : ℝ) ≤ 0.656 :=
    cbrt_le (by norm_num) (by norm_num) (by norm_num)
  have c6l : (0.857 : ℝ) ≤ 0.6302613616 ^ (1.0 / 3.0 : ℝ) := le_cbrt (by norm_num) (by norm_num)
  have c6u : (0.6302613616 : ℝ) ^ (1.0 / 3.0 : ℝ) ≤ 0.858 :=
    cbrt_le (by norm_num) (by norm_num) (by norm_num)
  have hT1l : (0.5945 : ℝ) ≤ T1 := by rw [hT1def]; linarith
  have hT1u : T1 ≤ 0.5955 := by rw [hT1def]; linarith
  have hT2l : (0.7335 : ℝ) ≤ T2 := by rw [hT2def]; linarith
  have hT2u : T2 ≤ 0.7345 := by rw [hT2def]; linarith
  have hT3l : (0.614 : ℝ) ≤ T3 := by rw [hT3def]; linarith
  have hT3u : T3 ≤ 0.615 := by rw [hT3def]; linarith
  have hcube1l : (0.5945 : ℝ) * 0.5945 * 0.5945 ≤ T1 * T1 * T1 :=
    cube_le_cube (by norm_num) hT1l
  have hcube1u : T1 * T1 * T1 ≤ (0.5955 : ℝ) * 0.5955 * 0.5955 :=
    cube_le_cube (by linarith) hT1u
  have hcube2l : (0.7335 : ℝ) * 0.7335 * 0.7335 ≤ T2 * T2 * T2 :=
    cube_le_cube (by norm_num) hT2l
  have hcube2u : T2 * T2 * T2 ≤ (0.7345 : ℝ) * 0.7345 * 0.7345 :=
    cube_le_cube (by linarith) hT2u
  have hcube3l : (0.614 : ℝ) * 0.614 * 0.614 ≤ T3 * T3 * T3 :=
    cube_le_cube (by norm_num) hT3l
  have hcube3u : T3 * T3 * T3 ≤ (0.615 : ℝ) * 0.615 * 0.615 :=
    cube_le_cube (by linarith) hT3u
  set R : ℝ := 4.0767245293 * (T1 * T1 * T1) + -1.2681437731 * (T2 * T2 * T2)
    + -0.0041119885 * (T3 * T3 * T3) with hRdef
  set G : ℝ := -3.3072168827 * (T1 * T1 * T1) + 2.6093323231 * (T2 * T2 * T2)
    + -0.7034763098 * (T3 * T3 * T3) with hGdef
  set Bc : ℝ := 0.2307590544 * (T1 * T1 * T1) + -0.3411344290 * (T2 * T2 * T2)
    + 1.7068625689 * (T3 * T3 * T3) with hBdef
  clear_value R G Bc
  have hRlo : (0.353 : ℝ) ≤ R := by rw [hRdef]; linarith
  have hRhi : R ≤ 0.36 := by rw [hRdef]; linarith
  have hGlo : (0.167 : ℝ) ≤ G := by rw [hGdef]; linarith
  have hGhi : G ≤ 0.18 := by rw [hGdef]; linarith
  have hBlo : (0.308 : ℝ) ≤ Bc := by rw [hBdef]; linarith
  have hBhi : Bc ≤ 0.312 := by rw [hBdef]; linarith
  simp only [linearRGBtoHex, vecOfReals_x, vecOfReals_y, vecOfReals_z]
  rw [srgbEncodeChannel_high (show ¬ R ≤ 0.0031308 from not_le.mpr (by linarith)),
      srgbEncodeChannel_high (show ¬ G ≤ 0.0031308 from not_le.mpr (by linarith)),
      srgbEncodeChannel_high (show ¬ Bc ≤ 0.0031308 from not_le.mpr (by linarith))]
  have hpR_lo : R ≤ R ^ (1 / 2.4 : ℝ) := by
    have h := Real.rpow_le_rpow_of_exponent_ge (show (0:ℝ) < R by linarith)
      (show R ≤ 1 by linarith) (show (1 / 2.4 : ℝ) ≤ 1 by norm_num)
    rwa [Real.rpow_one] at h
  have hpR_hi : R ^ (1 / 2.4 : ℝ) ≤ 1 :=
    Real.rpow_le_one (by linarith) (by linarith) (by norm_num)
  have hpG_lo : (0.47 : ℝ) ≤ G ^ (1 / 2.4 : ℝ) := by
    apply le_rpow_inv24 (by linarith) (by norm_num)
    calc (0.47 : ℝ) ^ 12 ≤ (0.167 : ℝ) ^ 5 := by norm_num
    _ ≤ G ^ 5 := pow_le_pow_left (by norm_num) hGlo 5
  have hpG_hi : G ^ (1 / 2.4 : ℝ) ≤ 1 :=
    Real.rpow_le_one (by linarith) (by linarith) (by norm_num)
  have hpB_lo : Bc ≤ Bc ^ (1 / 2.4 : ℝ) := by
    have h := Real.rpow_le_rpow_of_exponent_ge (show (0:ℝ) < Bc by linarith)
      (show Bc ≤ 1 by linarith) (show (1 / 2.4 : ℝ) ≤ 1 by norm_num)
    rwa [Real.rpow_one] at h
  have hpB_hi : Bc ^ (1 / 2.4 : ℝ) ≤ 1 :=
    Real.rpow_le_one (by linarith) (by linarith) (by norm_num)
  obtain ⟨kr, hkr, hkr0, hkr255⟩ := roundChannel_bounds (1.055 * R ^ (1 / 2.4 : ℝ) - 0.055)
    0 255 (by norm_num) (by norm_num) (by push_cast; linarith) (by push_cast; linarith)
  obtain ⟨kg, hkg, hkg112, hkg255⟩ := roundChannel_bounds (1.055 * G ^ (1 / 2.4 : ℝ) - 0.055)
    112 255 (by norm_num) (by norm_num) (by push_cast; linarith) (by push_cast; linarith)
  obtain ⟨kb, hkb, hkb0, hkb255⟩ := roundChannel_bounds (1.055 * Bc ^ (1 / 2.4 : ℝ) - 0.055)
    0 255 (by norm_num) (by norm_num) (by push_cast; linarith) (by push_cast; linarith)
  rw [hkr, hkg, hkb]
  rw [packRGB _ _ _ hkr0 (by omega) (by omega) (by omega) hkb0 (by omega)]
  exact ⟨kr * 65536 + kg * 256 + kb, rfl, by omega, by omega, by omega, by omega⟩

/-- Counterexample to claim C3 as stated: with 0 supplied midpoints the
driver prints exactly 2 colors (the two endpoints), not 3. -/
theorem c3_counterexample :
    (cliCall "#FF0000" "#0000FF" (some 0)).map List.length = some 2 ∧
    (cliCall "#FF0000" "#0000FF" (some 0)).map List.length ≠ some 3 := by
  unfold cliCall
  rw [show stringToHex "#FF0000" = some 16711680 from by decide,
      show stringToHex "#0000FF" = some 255 from by decide]
  have h : (some ((List.range ((some 0 : Option ℕ).getD 1 + 1 + 1)).map (fun i : ℕ =>
      (⟨oklabMix (hexToLinearRGB ((16711680 : ℕ) : ℤ)) (hexToLinearRGB ((255 : ℕ) : ℤ))
          ((i : ℝ) / (((some 0 : Option ℕ).getD 1 + 1 : ℕ) : ℝ)),
        linearRGBtoHex (oklabMix (hexToLinearRGB ((16711680 : ℕ) : ℤ))
          (hexToLinearRGB ((255 : ℕ) : ℤ))
          ((i : ℝ) / (((some 0 : Option ℕ).getD 1 + 1 : ℕ) : ℝ))),
        hexToString (linearRGBtoHex (oklabMix (hexToLinearRGB ((16711680 : ℕ) : ℤ))
          (hexToLinearRGB ((255 : ℕ) : ℤ))
          ((i : ℝ) / (((some 0 : Option ℕ).getD 1 + 1 : ℕ) : ℝ))))⟩ : MixEntry)))).map
      List.length = some 2 := by
    rfl
  exact ⟨h, by rw [h]; decide⟩

/-- Claim C3, amended: mixing `#FF0000` and `#0000FF` with midpoint count 1
(rather than 0 as originally claimed: `m` midpoints yield `m + 2` colors, so
three colors require `m = 1`) produces exactly 3 colors, and the middle one
is the OKLab-path blend at `h = 1/2`, which differs from the naive
linear-RGB average `#800080` far beyond any small tolerance: its green
channel is at least 64 (in fact at least 112) while the naive average's
green channel is 0. -/
theorem c3_red_blue_mix :
    ∃ e0 e1 e2 : MixEntry,
      cliCall "#FF0000" "#0000FF" (some 1) = some [e0, e1, e2] ∧
      e1.color = oklabMix (hexToLinearRGB ((16711680 : ℕ) : ℤ))
        (hexToLinearRGB ((255 : ℕ) : ℤ)) (1 / 2) ∧
      64 ≤ jsAnd (jsShr e1.hex 8) 255 ∧
      jsAnd (jsShr (8388736 : ℤ) 8) 255 = 0 ∧
      e1.hex ≠ 8388736 := by
  have h := cliCall_m1 "#FF0000" "#0000FF" 16711680 255 (by decide) (by decide)
  obtain ⟨hx, hhx, hx0, hx16, hx112, hxne⟩ := mid_red_blue_hex
  refine ⟨_, _, _, h, ?_, ?_, ?_, ?_⟩
  · show oklabMix (hexToLinearRGB ((16711680 : ℕ) : ℤ)) (hexToLinearRGB ((255 : ℕ) : ℤ))
      (((1 : ℕ) : ℝ) / ((2 : ℕ) : ℝ)) = oklabMix (hexToLinearRGB ((16711680 : ℕ) : ℤ))
      (hexToLinearRGB ((255 : ℕ) : ℤ)) (1 / 2)
    norm_num
  · show 64 ≤ jsAnd (jsShr (linearRGBtoHex (oklabMix (hexToLinearRGB ((16711680 : ℕ) : ℤ))
      (hexToLinearRGB ((255 : ℕ) : ℤ)) (((1 : ℕ) : ℝ) / ((2 : ℕ) : ℝ)))) 8) 255
    rw [decode_red, decode_blue,
      show (((1 : ℕ) : ℝ) / ((2 : ℕ) : ℝ)) = (1 / 2 : ℝ) by norm_num, hhx, chanG_spec]
    omega
  · rw [chanG_spec]
    decide
  · show linearRGBtoHex (oklabMix (hexToLinearRGB ((16711680 : ℕ) : ℤ))
      (hexToLinearRGB ((255 : ℕ) : ℤ)) (((1 : ℕ) : ℝ) / ((2 : ℕ) : ℝ))) ≠ 8388736
    rw [decode_red, decode_blue,
      show (((1 : ℕ) : ℝ) / ((2 : ℕ) : ℝ)) = (1 / 2 : ℝ) by norm_num, hhx]
    exact hxne
